import Mathlib

/-!
# Verification of the schema-registry code generators

This file gives a shallow embedding of the two code generators of the
repository (the Python generator `src/generators/python/generator.py` and
the TypeScript generator `scripts/generate_typescript.py`) together with an
executable semantics of the code they emit, and proves or refutes the
frozen specification claims about them.

Conventions:
* YAML / JSON data is modelled by the inductive type `Json`.
* A schema node (one entry of `components.schemas`, or a property schema)
  is modelled by `PropSchema`, a record of the optional keys the
  generators inspect (`$ref`, `type`, `items`, `format`, `pattern`,
  `enum`, `minimum`, `maximum`, `properties`, `required`, `description`,
  `default`).
* The behaviour of the *generated* marshalling code is modelled by
  executable functions parameterised over the schema document, following
  the emitted code line by line; external library behaviour
  (pydantic construction, zod parsing, `datetime.strptime`) is modelled
  by explicit executable predicates.
* Recursion through entity references (`$ref`) is fuel-indexed, because a
  schema document may be cyclic.
-/

set_option maxHeartbeats 1000000

namespace SchemaRegistry

/-- JSON-compatible data: the wire values and YAML scalars handled by the
generators.  Numbers are modelled as integers (the schemas in scope use
integer amounts). -/
inductive Json where
  | null
  | str (s : String)
  | int (n : Int)
  | bool (b : Bool)
  | arr (elems : List Json)
  | obj (fields : List (String × Json))

namespace Json

/-- Python truthiness of a value received by the generated `from_dict`
(`if not data: ...`): `None`, `{}`, `[]`, `""`, `0` and `False` are falsy. -/
def falsy : Json → Bool
  | .null => true
  | .str s => s.data.isEmpty
  | .int n => n == 0
  | .bool b => !b
  | .arr l => l.isEmpty
  | .obj l => l.isEmpty

/-- Mapping lookup, `data.get(key)` / `data[key]` on a dict. -/
def lookup (key : String) : List (String × Json) → Option Json
  | [] => none
  | (k, v) :: rest => if k = key then some v else lookup key rest

end Json

/-- One schema node, as the dictionary of optional keys that the two
generators inspect.  `properties` is the ordered property list of an
`object` node; `required` its required-name list. -/
inductive PropSchema where
  | mk (ref : Option String) (type : Option String) (items : Option PropSchema)
      (format : Option String) (pattern : Option String)
      (enumVals : Option (List String)) (minimum : Option Int) (maximum : Option Int)
      (properties : List (String × PropSchema)) (required : List String)
      (description : Option String) (default : Option Json)

namespace PropSchema

def ref : PropSchema → Option String
  | .mk r _ _ _ _ _ _ _ _ _ _ _ => r

def type : PropSchema → Option String
  | .mk _ t _ _ _ _ _ _ _ _ _ _ => t

def items : PropSchema → Option PropSchema
  | .mk _ _ i _ _ _ _ _ _ _ _ _ => i

def format : PropSchema → Option String
  | .mk _ _ _ f _ _ _ _ _ _ _ _ => f

def pattern : PropSchema → Option String
  | .mk _ _ _ _ p _ _ _ _ _ _ _ => p

def enumVals : PropSchema → Option (List String)
  | .mk _ _ _ _ _ e _ _ _ _ _ _ => e

def minimum : PropSchema → Option Int
  | .mk _ _ _ _ _ _ m _ _ _ _ _ => m

def maximum : PropSchema → Option Int
  | .mk _ _ _ _ _ _ _ m _ _ _ _ => m

def properties : PropSchema → List (String × PropSchema)
  | .mk _ _ _ _ _ _ _ _ ps _ _ _ => ps

def required : PropSchema → List String
  | .mk _ _ _ _ _ _ _ _ _ req _ _ => req

def description : PropSchema → Option String
  | .mk _ _ _ _ _ _ _ _ _ _ d _ => d

def default : PropSchema → Option Json
  | .mk _ _ _ _ _ _ _ _ _ _ _ d => d

/-- A node carrying none of the keys. -/
def base : PropSchema := .mk none none none none none none none none [] [] none none

/-- A plain scalar node: `{type: t}`. -/
def scalar (t : String) : PropSchema :=
  .mk none (some t) none none none none none none [] [] none none

/-- `{type: t, format: f}`. -/
def scalarFmt (t f : String) : PropSchema :=
  .mk none (some t) none (some f) none none none none [] [] none none

/-- `{$ref: path}`. -/
def refTo (path : String) : PropSchema :=
  .mk (some path) none none none none none none none [] [] none none

/-- `{type: array, items: i}`. -/
def arrayOf (i : PropSchema) : PropSchema :=
  .mk none (some "array") (some i) none none none none none [] [] none none

/-- `{type: object, properties: ps, required: req}`. -/
def object (ps : List (String × PropSchema)) (req : List String) : PropSchema :=
  .mk none (some "object") none none none none none none ps req none none

end PropSchema

/-- The `components.schemas` mapping of the document, in insertion order. -/
abbrev SchemaDoc := List (String × PropSchema)

/-- Schema lookup by entity name (Python dict access `schemas[name]`). -/
def lookupSchema (doc : SchemaDoc) (name : String) : Option PropSchema :=
  match doc with
  | [] => none
  | (k, v) :: rest => if k = name then some v else lookupSchema rest name

/-- Split a character list at every occurrence of a separator (the
semantics of Python's `str.split(sep)`: always at least one group, empty
groups preserved). -/
def splitOnChar (sep : Char) : List Char → List (List Char)
  | [] => [[]]
  | c :: cs =>
    match splitOnChar sep cs with
    | [] => [[c]]
    | g :: gs => if c = sep then [] :: g :: gs else (c :: g) :: gs

/-- `ref_path = r.split('/'); ref_name = ref_path[-1]` — both generators
resolve a `$ref` to the last path component. -/
def refLast (r : String) : String :=
  String.mk ((splitOnChar '/' r.data).getLastD r.data)

/-- The whole YAML document, for `validate_spec`: presence of the
`components` key, and of the `schemas` key inside it. -/
structure SpecDoc where
  components : Option (Option SchemaDoc)
  deriving Inhabited

/-- The `components.schemas` mapping of a document, or `none` when either
level is missing (`spec.get('components', {}).get('schemas', {})` style
access). -/
def SpecDoc.schemas? (d : SpecDoc) : Option SchemaDoc :=
  match d.components with
  | none => none
  | some inner => inner

/-- `validate_spec` (generator.py): fails iff `'components' not in spec or
'schemas' not in spec['components']`. -/
def validate_spec (spec : SpecDoc) : Except String Unit :=
  match spec.components with
  | none => .error "Schema must contain components.schemas section"
  | some inner =>
    match inner with
    | none => .error "Schema must contain components.schemas section"
    | some _ => .ok ()

/-! ## `datetime.strptime(v, "%Y-%m-%d")`

CPython compiles `%Y-%m-%d` to the regex
`(?P<Y>\d\d\d\d)-(?P<m>1[0-2]|0[1-9]|[1-9])-(?P<d>3[01]|[12]\d|0[1-9]|[1-9])`
anchored at the start, raises for unconverted trailing data, and then lets
the `datetime` constructor reject days that do not exist in the month. -/

/-- Gregorian leap-year rule, as used by `datetime`. -/
def isLeapYear (y : Nat) : Bool :=
  y % 4 == 0 && (y % 100 != 0 || y % 400 == 0)

/-- Days in a month, as enforced by the `datetime` constructor. -/
def daysInMonth (y m : Nat) : Nat :=
  if m = 2 then (if isLeapYear y then 29 else 28)
  else if m = 4 || m = 6 || m = 9 || m = 11 then 30
  else 31

/-- Numeric value of a digit token. -/
def digitsToNatAux : Nat → List Char → Nat
  | acc, [] => acc
  | acc, c :: cs => digitsToNatAux (10 * acc + (c.toNat - 48)) cs

def digitsToNat (cs : List Char) : Nat := digitsToNatAux 0 cs

/-- Digits-only check for a token. -/
def allDigits (cs : List Char) : Bool :=
  !cs.isEmpty && cs.all Char.isDigit

/-- The `%m` group `1[0-2]|0[1-9]|[1-9]`: one or two digits, value 1–12. -/
def monthToken (cs : List Char) : Bool :=
  allDigits cs && cs.length ≤ 2 && 1 ≤ digitsToNat cs && digitsToNat cs ≤ 12

/-- The `%d` group `3[01]|[12]\d|0[1-9]|[1-9]`: one or two digits, value 1–31. -/
def dayToken (cs : List Char) : Bool :=
  allDigits cs && cs.length ≤ 2 && 1 ≤ digitsToNat cs && digitsToNat cs ≤ 31

/-- `datetime.strptime(v, "%Y-%m-%d")` succeeds exactly on these strings:
a four-digit year ≥ 1, a 1–2 digit month in 1..12, a 1–2 digit day that
exists in the month, and nothing else in the string. -/
def strptimeDateOk (s : String) : Bool :=
  match splitOnChar '-' s.data with
  | [ys, ms, ds] =>
    allDigits ys && ys.length == 4 && 1 ≤ digitsToNat ys &&
      monthToken ms && dayToken ds &&
      digitsToNat ds ≤ daysInMonth (digitsToNat ys) (digitsToNat ms)
  | _ => false

/-! ## zod `z.string().datetime()` (v3 default: no offset, any precision)

The default zod datetime check is the anchored regex
`^\d{4}-\d{2}-\d{2}T\d{2}:\d{2}:\d{2}(\.\d+)?Z$`; it does not range-check
the components. -/

/-- Consume exactly `n` digits from the front. -/
def takeDigits : Nat → List Char → Option (List Char)
  | 0, cs => some cs
  | n + 1, c :: cs => if c.isDigit then takeDigits n cs else none
  | _ + 1, [] => none

/-- Consume one expected character. -/
def takeChar (c : Char) : List Char → Option (List Char)
  | c2 :: cs => if c2 = c then some cs else none
  | [] => none

/-- An optional fractional-seconds part `(\.\d+)?` followed by `Z` and
end of input. -/
def zodDatetimeTail : List Char → Bool
  | ['Z'] => true
  | '.' :: cs =>
    let frac := cs.takeWhile Char.isDigit
    let rest := cs.dropWhile Char.isDigit
    !frac.isEmpty && rest = ['Z']
  | _ => false

/-- The zod v3 default `z.string().datetime()` acceptance predicate. -/
def zodDatetimeOk (s : String) : Bool :=
  (((((((((some s.toList).bind (takeDigits 4)).bind (takeChar '-')).bind
    (takeDigits 2)).bind (takeChar '-')).bind (takeDigits 2)).bind
    (takeChar 'T')).bind (fun cs =>
      (((some cs).bind (takeDigits 2)).bind (takeChar ':')).bind
        (takeDigits 2))).bind (takeChar ':')).bind (takeDigits 2)
  |>.map zodDatetimeTail |>.getD false

/-! ## The Python generator: `_map_type` and `_generate_model`

`_generate_model` (generator.py lines 374–467) ignores its `name`/`schema`
arguments and re-emits a class for *every* entry of
`components.schemas`; `_generate_models` (lines 339–372) calls it once per
hard-coded `model_order` name present in the document. -/

/-- `PythonGenerator._map_type`. -/
def mapPyType (typeName : String) : String :=
  if typeName = "string" then "str"
  else if typeName = "integer" then "int"
  else if typeName = "number" then "float"
  else if typeName = "boolean" then "bool"
  else if typeName = "array" then "list"
  else if typeName = "object" then "dict"
  else "Any"

/-- The property annotation text computed in `_generate_model`
(lines 414–428).  `none` models the generation-time `KeyError` raised by
`prop_schema['items']` when an `array` property has no `items` key. -/
def pythonPropType (s : PropSchema) : Option String :=
  match s.ref with
  | some r => some (refLast r)
  | none =>
    if s.type = some "array" then
      match s.items with
      | some i =>
        match i.ref with
        | some r => some ("List[" ++ refLast r ++ "]")
        | none => some ("List[" ++ mapPyType (i.type.getD "Any") ++ "]")
      | none => none
    else
      some (mapPyType (s.type.getD "string"))

/-- The emitted field line for one property (lines 430–435): required
properties get a bare annotation, all others `Optional[...]` with a
default that depends only on the annotation text. -/
def pyFieldLine (p : String) (s : PropSchema) (required : List String) : String :=
  let propType := (pythonPropType s).getD "<items KeyError>"
  if required.contains p then
    "    " ++ p ++ ": " ++ propType
  else
    let dflt := if propType ≠ "bool" then "None" else "False"
    "    " ++ p ++ ": " ++ ("Optional[" ++ (propType ++ "] = " ++ dflt))

/-- The `@field_validator` block emitted for a `date`-format property
(lines 446–463). -/
def pyDateValidatorLines (p : String) (required : List String) : List String :=
  let paramType := if required.contains p then "str" else "Optional[str]"
  [ "    @field_validator(\"" ++ p ++ "\")",
    "    def validate_" ++ p ++ s!"(cls, v: {paramType}) -> {paramType}:",
    "        \"\"\"Validate date format\"\"\"",
    "        if v is None:",
    "            return v",
    "        try:",
    "            datetime.strptime(v, \"%Y-%m-%d\")",
    "            return v",
    "        except ValueError:",
    "            raise ValueError(\"Invalid date format. Use YYYY-MM-DD\")",
    "" ]

/-- The import header that `_generate_model` (and `_generate_models`)
starts with. -/
def pyModelHeader : List String :=
  [ "from typing import Any, Dict, List, Optional",
    "from datetime import datetime",
    "from pydantic import BaseModel, field_validator",
    "",
    "" ]

/-- The lines emitted for one `components.schemas` entry inside
`_generate_model`'s loop (lines 386–465). -/
def pyClassLines (name : String) (schema : PropSchema) : List String :=
  [ "\"\"\"", schema.description.getD ("Represents a " ++ name), "\"\"\"" ]
  ++ [ s!"class {name}(BaseModel):", "" ]
  ++ schema.properties.flatMap (fun pp =>
      (match pp.2.description with
       | some d => [ "    \"\"\"", "    " ++ d, "    \"\"\"" ]
       | none => [])
      ++ [ pyFieldLine pp.1 pp.2 schema.required ])
  ++ [ "", "    class Config:", "        extra = \"allow\"", "" ]
  ++ schema.properties.flatMap (fun pp =>
      if pp.2.format = some "date" then pyDateValidatorLines pp.1 schema.required
      else [])
  ++ [ "" ]

/-- `PythonGenerator._generate_model`: the `name`/`schema` parameters are
shadowed by the loop over all schemas, so every call re-emits every
entity. -/
def generateModel (schemas : SchemaDoc) (_name : String) (_schema : PropSchema) :
    List String :=
  pyModelHeader ++ schemas.flatMap (fun e => pyClassLines e.1 e.2)

/-- The hard-coded `model_order` list of `_generate_models`. -/
def modelOrder : List String :=
  ["Bill", "Project", "LineItem", "Approval", "Metadata", "BillEvent"]

/-- `PythonGenerator._generate_models` (lines 339–372), as the emitted
line list (the source joins the lines with newlines). -/
def generateModels (doc : SchemaDoc) : Except String (List String) :=
  if doc.isEmpty then .error "No schemas found in components"
  else
    .ok (pyModelHeader ++ modelOrder.flatMap (fun m =>
      match lookupSchema doc m with
      | some s => generateModel doc m s ++ [""]
      | none => []))

/-! ## The TypeScript generator (`scripts/generate_typescript.py`)

`generate_typescript_interface` marks *every* property optional (`?:`);
`generate_zod_schema` derives optionality from the `required` list; the
`date` string format is emitted as a bare `z.string()`. -/

/-- `get_typescript_type` (lines 83–108). -/
def getTsType : PropSchema → String → String
  | .mk ref ty items _fmt _pat env _mn _mx _props _req _desc _dflt, name =>
    match ref with
    | some r => refLast r
    | none =>
      match ty with
      | none => "unknown"
      | some t =>
        if t = "object" then name
        else if t = "array" then
          match items with
          | some i => getTsType i (name ++ "_item") ++ "[]"
          | none => "<items KeyError>"
        else if t = "string" then
          match env with
          | some vs => " | ".intercalate (vs.map (fun v => "\"" ++ v ++ "\""))
          | none => "string"
        else if t = "integer" then "number"
        else if t = "boolean" then "boolean"
        else "unknown"

/-- The field lines of `generate_typescript_interface` (lines 65–73):
a doc line when the property has a description, then always
`  {name}?: {type};` — the `?` marker is unconditional. -/
def tsInterfaceFields (s : PropSchema) (name : String) : List String :=
  s.properties.flatMap (fun pp =>
    (match pp.2.description with
     | some d => [ s!"  /** {d} */" ]
     | none => [])
    ++ [ s!"  {pp.1}?: " ++ getTsType pp.2 (name ++ "_" ++ pp.1) ++ ";" ])

/-- `generate_typescript_interface` (lines 61–81). -/
def generate_typescript_interface (s : PropSchema) (name : String) : String :=
  if s.type ≠ some "object" then ""
  else
    "/**\n * " ++ (s.description.getD ("Represents a " ++ name)) ++
      s!"\n * @interface {name}\n */\nexport interface {name} \x7b\n" ++
      "\n".intercalate (tsInterfaceFields s name) ++ "\n\x7d"

/-- The zod expressions that `generate_zod_schema` can emit.  Constructor
names follow the emitted zod source text (see `ZodExpr.render`). -/
inductive ZodExpr where
  | zUnknown
  | zObject (fields : List (String × ZodExpr × Bool))
  | zArray (item : ZodExpr)
  | zEnum (vals : List String)
  | zString
  | zStringDatetime
  | zStringEmail
  | zStringUuid
  | zNumberInt
  | zBoolean
  | zRef (entity : String)
  | zGenError

/-- The object-field loop of `generate_zod_schema` (lines 20–31): each
entry is `(name, field schema, is_required)`; `rec` is the recursive
translation of a non-`$ref` field schema. -/
def genZodFields (rec : PropSchema → String → ZodExpr) :
    List (String × PropSchema) → List String → String →
    List (String × ZodExpr × Bool)
  | [], _, _ => []
  | (p, ps) :: rest, req, name =>
    (p,
     (match ps.ref with
      | some r => .zRef (refLast r)
      | none => rec ps (name ++ "_" ++ p)),
     req.contains p) :: genZodFields rec rest req name

/-- `generate_zod_schema` (lines 12–59).  Top-level branching is on the
`type` key (a bare `$ref` node without `type` maps to `z.unknown()`);
property `$ref`s become named schema references; the `date` format falls
through to a bare `z.string()` (line 46); `zGenError` marks the
generation-time `KeyError` of `schema['items']` for an `array` without
`items` (line 36).  The `Nat` argument bounds the recursion depth into
nested property/item schemas (the source recursion always terminates on
the finite document; any bound at least the schema's nesting depth gives
the source behaviour). -/
def generate_zod_schema : Nat → PropSchema → String → ZodExpr
  | 0, _, _ => .zUnknown
  | fuel + 1, .mk _ref ty items fmt _pat env _mn _mx props req _desc _dflt, name =>
    match ty with
    | none => .zUnknown
    | some t =>
      if t = "object" then
        .zObject (genZodFields (generate_zod_schema fuel) props req name)
      else if t = "array" then
        match items with
        | some i => .zArray (generate_zod_schema fuel i (name ++ "_item"))
        | none => .zGenError
      else if t = "string" then
        match env with
        | some vs => .zEnum vs
        | none =>
          match fmt with
          | some f =>
            if f = "date-time" then .zStringDatetime
            else if f = "date" then .zString
            else if f = "email" then .zStringEmail
            else if f = "uuid" then .zStringUuid
            else .zString
          | none => .zString
      else if t = "integer" then .zNumberInt
      else if t = "boolean" then .zBoolean
      else .zUnknown

mutual

/-- The zod source text of an expression, exactly as the generator emits
it (field lines `  {name}: {schema}` with an `.optional()` suffix when the
property is not required, joined by `,\n`). -/
def ZodExpr.render : ZodExpr → String
  | .zUnknown => "z.unknown()"
  | .zObject fields =>
    "z.object(\x7b\n" ++ ",\n".intercalate (ZodExpr.renderFields fields) ++ "\n\x7d)"
  | .zArray item => "z.array(" ++ item.render ++ ")"
  | .zEnum vals =>
    "z.enum([" ++ ", ".intercalate (vals.map (fun v => "\"" ++ v ++ "\"")) ++ "])"
  | .zString => "z.string()"
  | .zStringDatetime => "z.string().datetime()"
  | .zStringEmail => "z.string().email()"
  | .zStringUuid => "z.string().uuid()"
  | .zNumberInt => "z.number().int()"
  | .zBoolean => "z.boolean()"
  | .zRef entity => entity ++ "Schema"
  | .zGenError => "<items KeyError>"

def ZodExpr.renderFields : List (String × ZodExpr × Bool) → List String
  | [] => []
  | (p, e, isReq) :: rest =>
    (s!"  {p}: " ++ e.render ++ (if isReq then "" else ".optional()")) ::
      ZodExpr.renderFields rest

end

/-! ## Runtime semantics of the generated zod validator

`validator.ts` declares `export const {name}Schema = z.lazy(() => ...)`
for every entity; `zRef` dereference consumes one unit of fuel (the data
is finite, so any fuel larger than its nesting depth is enough). -/

/-- A zod issue: a missing required object field (zod path + "Required"),
or any other validation failure. -/
inductive ZodIssue where
  | missingField (name : String)
  | invalid
  deriving Repr, DecidableEq

/-- The environment built by `validator.ts`: every entity name bound to
its generated zod schema (with generation depth bound `fuel`). -/
def zodEnv (fuel : Nat) (doc : SchemaDoc) : List (String × ZodExpr) :=
  doc.map (fun e => (e.1, generate_zod_schema fuel e.2 e.1))

def lookupZod (env : List (String × ZodExpr)) (name : String) : Option ZodExpr :=
  match env with
  | [] => none
  | (k, v) :: rest => if k = name then some v else lookupZod rest name

/-- Array elements under a fixed element check: validate each, collect
all issues (as zod does). -/
def zodCheckElems (chk : Json → Except (List ZodIssue) Json) :
    List Json → Except (List ZodIssue) (List Json)
  | [] => .ok []
  | x :: rest =>
    match chk x, zodCheckElems chk rest with
    | .ok v, .ok vs => .ok (v :: vs)
    | .ok _, .error issues => .error issues
    | .error issues, .ok _ => .error issues
    | .error issues, .error more => .error (issues ++ more)

/-- Object fields under a fixed sub-schema check: a missing required
field yields a `missingField` issue, a missing optional field is skipped
(and its key omitted from the parsed object), present fields are
validated by their field schema; all issues are collected. -/
def zodCheckFields (chk : ZodExpr → Json → Except (List ZodIssue) Json) :
    List (String × ZodExpr × Bool) → List (String × Json) →
    Except (List ZodIssue) (List (String × Json))
  | [], _ => .ok []
  | (p, e, isReq) :: rest, l =>
    let head : Except (List ZodIssue) (List (String × Json)) :=
      match Json.lookup p l with
      | some v =>
        match chk e v with
        | .ok parsed => .ok [(p, parsed)]
        | .error issues => .error issues
      | none => if isReq then .error [.missingField p] else .ok []
    match head, zodCheckFields chk rest l with
    | .ok h, .ok t => .ok (h ++ t)
    | .ok _, .error issues => .error issues
    | .error issues, .ok _ => .error issues
    | .error issues, .error more => .error (issues ++ more)

/-- `schema.parse(data)` for the zod expressions the generator emits:
issues are collected across object fields and array elements, unknown
object keys are stripped, and the parsed value is returned on success.
The `Nat` argument bounds the recursion depth (one unit per nesting
level); finite data is parsed identically under every sufficiently large
bound. -/
def zodCheck : Nat → List (String × ZodExpr) → ZodExpr → Json →
    Except (List ZodIssue) Json
  | 0, _, _, _ => .error [.invalid]
  | fuel + 1, env, e, j =>
    match e with
    | .zUnknown => .ok j
    | .zString =>
      match j with
      | .str _ => .ok j
      | _ => .error [.invalid]
    | .zStringDatetime =>
      match j with
      | .str s => if zodDatetimeOk s then .ok j else .error [.invalid]
      | _ => .error [.invalid]
    | .zStringEmail =>
      match j with
      | .str _ => .ok j
      | _ => .error [.invalid]
    | .zStringUuid =>
      match j with
      | .str _ => .ok j
      | _ => .error [.invalid]
    | .zEnum vals =>
      match j with
      | .str s => if vals.contains s then .ok j else .error [.invalid]
      | _ => .error [.invalid]
    | .zNumberInt =>
      match j with
      | .int _ => .ok j
      | _ => .error [.invalid]
    | .zBoolean =>
      match j with
      | .bool _ => .ok j
      | _ => .error [.invalid]
    | .zArray item =>
      match j with
      | .arr elems =>
        match zodCheckElems (zodCheck fuel env item) elems with
        | .ok parsed => .ok (.arr parsed)
        | .error issues => .error issues
      | _ => .error [.invalid]
    | .zObject fields =>
      match j with
      | .obj l =>
        match zodCheckFields (zodCheck fuel env) fields l with
        | .ok parsed => .ok (.obj parsed)
        | .error issues => .error issues
      | _ => .error [.invalid]
    | .zRef entity =>
      match lookupZod env entity with
      | some e2 => zodCheck fuel env e2 j
      | none => .error [.invalid]
    | .zGenError => .error [.invalid]

/-- The error taxonomy of the generated `common.ts`
(`SchemaRegistryErrorCode`); a validation error carries the zod issues. -/
inductive SRError where
  | parseError
  | validationError (issues : List ZodIssue)
  | marshalError
  | unmarshalError
  deriving Repr, DecidableEq

/-- A wire payload handed to `unmarshal{Name}`: either a value that is
already structured (or a string that `JSON.parse` accepts, represented by
its parse result), or a string `JSON.parse` rejects with `SyntaxError`. -/
inductive WirePayload where
  | wellFormed (j : Json)
  | malformed

/-- `Unmarshaller.unmarshal{Name}` (generate_typescript.py lines 287–323):
`SyntaxError → PARSE_ERROR`, `ZodError → VALIDATION_ERROR`, anything
else → `UNMARSHAL_ERROR`; on success the zod-parsed value is returned. -/
def tsUnmarshal (fuel : Nat) (doc : SchemaDoc) (name : String)
    (payload : WirePayload) : Except SRError Json :=
  match payload with
  | .malformed => .error .parseError
  | .wellFormed j =>
    match lookupZod (zodEnv fuel doc) name with
    | none => .error .unmarshalError
    | some e =>
      match zodCheck fuel (zodEnv fuel doc) e j with
      | .ok v => .ok v
      | .error issues => .error (.validationError issues)

/-- `Marshaller.marshal{Name}` (lines 253–284): validate, then
`JSON.stringify(data)` — the stringified payload parses back to the input
value, so it is modelled as `wellFormed` of the input. -/
def tsMarshal (fuel : Nat) (doc : SchemaDoc) (name : String) (x : Json) :
    Except SRError WirePayload :=
  match lookupZod (zodEnv fuel doc) name with
  | none => .error .marshalError
  | some e =>
    match zodCheck fuel (zodEnv fuel doc) e x with
    | .ok _ => .ok (.wellFormed x)
    | .error issues => .error (.validationError issues)

/-! ## Runtime semantics of the generated Python marshaller

`_generate_marshaller` (generator.py lines 684–758) emits, per entity, a
`{Name}Marshaller` with `from_dict`/`to_dict`.  The semantics below is
parameterised by the schema document (the generated code bakes in exactly
the schema's property list) and fuel for the by-name recursion between
entity marshallers. -/

/-- The failure modes of the generated Python code: `ValueError` (the
falsy-data guard), `KeyError` (a `data[...]` access on a missing key),
`AttributeError`/`TypeError` (attribute access or iteration on an
unsuitable value), pydantic `ValidationError` (carrying the failing field
names), a `NameError` for a marshaller that was never generated, and
Python's recursion limit. -/
inductive PyErr where
  | valueError (msg : String)
  | keyError (key : String)
  | attributeError
  | typeError
  | validationError (fields : List String)
  | nameError (name : String)
  | recursionError
  deriving Repr, DecidableEq

/-- A generated-Python runtime value: a JSON-compatible scalar/structure,
a pydantic model instance, or a Python list of such values. -/
inductive PyVal where
  | prim (j : Json)
  | model (entity : String) (fields : List (String × PyVal))
  | list (elems : List PyVal)

/-- `v is None`. -/
def PyVal.isNull : PyVal → Bool
  | .prim .null => true
  | _ => false

def lookupField (fields : List (String × PyVal)) (p : String) : Option PyVal :=
  match fields with
  | [] => none
  | (k, v) :: rest => if k = p then some v else lookupField rest p

mutual

def PyVal.asWireGo : PyVal → Json
  | .prim j => j
  | .model _ fields => .obj (PyVal.fieldsAsWire fields)
  | .list elems => .arr (PyVal.listAsWire elems)

def PyVal.fieldsAsWire : List (String × PyVal) → List (String × Json)
  | [] => []
  | (p, v) :: rest => (p, v.asWireGo) :: PyVal.fieldsAsWire rest

def PyVal.listAsWire : List PyVal → List Json
  | [] => []
  | v :: rest => v.asWireGo :: PyVal.listAsWire rest

end

/-- A value embedded as-is into the dictionary built by `to_dict` (the
non-reference branch emits `"{name}": obj.{name}` with no conversion):
a JSON primitive is emitted unchanged; a model or list value would make
the emitted dictionary carry a live Python object, rendered here by its
field/element image (no conformant entity produces that case). -/
def PyVal.asWire : PyVal → Json
  | .prim j => j
  | .model e fields => PyVal.asWireGo (.model e fields)
  | .list elems => PyVal.asWireGo (.list elems)

/-- The pydantic field annotations produced by `_generate_model`: a
referenced model class, `List[...]`, or a primitive type name. -/
inductive PyAnn where
  | refModel (entity : String)
  | listOf (inner : PyAnn)
  | prim (tyName : String)

/-- The annotation of a property, mirroring `pythonPropType`;
`none` is the generation-time `KeyError` for `array` without `items`. -/
def pyAnnOf (s : PropSchema) : Option PyAnn :=
  match s.ref with
  | some r => some (.refModel (refLast r))
  | none =>
    if s.type = some "array" then
      match s.items with
      | some i =>
        match i.ref with
        | some r => some (.listOf (.refModel (refLast r)))
        | none => some (.listOf (.prim (mapPyType (i.type.getD "Any"))))
      | none => none
    else
      some (.prim (mapPyType (s.type.getD "string")))

/-- pydantic acceptance of a non-null primitive for a type name
(`float` accepts `int`; `Any` accepts anything; numeric-string lax
coercions are not modelled and no theorem depends on them). -/
def pyPrimOk (tyName : String) (j : Json) : Bool :=
  if tyName = "Any" then true
  else
    match j with
    | .str _ => tyName = "str"
    | .int _ => tyName = "int" || tyName = "float"
    | .bool _ => tyName = "bool"
    | .arr _ => tyName = "list"
    | .obj _ => tyName = "dict"
    | .null => false

/-- pydantic acceptance of a list element for the item annotation. -/
def pyElemOk : PyAnn → PyVal → Bool
  | .refModel t, .model t2 _ => t2 = t
  | .prim t, .prim j => pyPrimOk t j
  | _, _ => false

/-- Shape/type acceptance of a non-null field value against its
annotation: a referenced-model field requires an instance of that model;
a list field a list of acceptable elements; a primitive field a matching
non-null primitive. -/
def pyAnnMatches : PyAnn → PyVal → Bool
  | .refModel t, .model t2 _ => t2 = t
  | .listOf inner, .list elems => elems.all (pyElemOk inner)
  | .listOf (.prim t), .prim (.arr js) => js.all (pyPrimOk t)
  | .prim t, .prim j => pyPrimOk t j
  | _, _ => false

/-- The emitted `@field_validator` for `date`-format fields
(`datetime.strptime(v, "%Y-%m-%d")` on non-null strings). -/
def pyDateCheck : Option String → PyVal → Bool
  | some f, .prim (.str s) => if f = "date" then strptimeDateOk s else true
  | _, _ => true

/-- pydantic acceptance of one field value: `Optional[...]` fields accept
`None`; otherwise the value must match the annotation and, for a
`date`-format field, pass the emitted date validator. -/
def pyFieldOk (ann : PyAnn) (isOptional : Bool) (format : Option String)
    (v : PyVal) : Bool :=
  if isOptional && v.isNull then true
  else pyAnnMatches ann v && pyDateCheck format v

/-- Constructing `{Name}(**fields)`: pydantic validates every declared
field (in declaration order) and reports all failing field names in one
`ValidationError`; on success the instance holds the given fields. -/
def pydanticInit (name : String) (sch : PropSchema)
    (fields : List (String × PyVal)) : Except PyErr PyVal :=
  let bad := sch.properties.filterMap (fun ps =>
    match lookupField fields ps.1 with
    | some v =>
      match pyAnnOf ps.2 with
      | some ann =>
        if pyFieldOk ann (!sch.required.contains ps.1) ps.2.format v then none
        else some ps.1
      | none => some ps.1
    | none => some ps.1)
  if bad.isEmpty then .ok (.model name fields) else .error (.validationError bad)

/-- Does the marshaller treat this property as an array of references?
(`prop_schema.get('type') == 'array' and '$ref' in prop_schema.get('items', {})`). -/
def isArrayRefProp (s : PropSchema) : Bool :=
  s.type = some "array" &&
    (match s.items with
     | some i => i.ref.isSome
     | none => false)

/-- Target entity of the `items.$ref`. -/
def arrayRefTarget (s : PropSchema) : String :=
  match s.items with
  | some i => refLast (i.ref.getD "")
  | none => ""

/-- Map a referenced marshaller's `from_dict` over the elements of a
wire list, failing at the first element failure (Python list
comprehension). -/
def pyFromDictList (rec : String → Json → Except PyErr PyVal)
    (target : String) : List Json → Except PyErr (List PyVal)
  | [] => .ok []
  | x :: rest =>
    match rec target x with
    | .error e => .error e
    | .ok v =>
      match pyFromDictList rec target rest with
      | .ok vs => .ok (v :: vs)
      | .error e => .error e

/-- One constructor argument of the generated `from_dict` (lines
713–726): a `lineItems` `$ref` and any array-of-`$ref` iterate
`data.get(name, [])` through the referenced marshaller, any other `$ref`
recurses on `data[name]` (a `KeyError` when absent), and everything else
passes `data.get(name)` through.  `rec` is the referenced entity's
`from_dict`. -/
def pyFromDictProp (rec : String → Json → Except PyErr PyVal)
    (p : String) (s : PropSchema) (l : List (String × Json)) :
    Except PyErr PyVal :=
  match s.ref with
  | some r =>
    if p = "lineItems" then
      match (Json.lookup p l).getD (.arr []) with
      | .arr elems =>
        match pyFromDictList rec (refLast r) elems with
        | .ok vs => .ok (.list vs)
        | .error e => .error e
      | _ => .error .typeError
    else
      match Json.lookup p l with
      | none => .error (.keyError p)
      | some v => rec (refLast r) v
  | none =>
    if isArrayRefProp s then
      match (Json.lookup p l).getD (.arr []) with
      | .arr elems =>
        match pyFromDictList rec (arrayRefTarget s) elems with
        | .ok vs => .ok (.list vs)
        | .error e => .error e
      | _ => .error .typeError
    else
      .ok (.prim ((Json.lookup p l).getD .null))

/-- The constructor-argument loop, left to right, aborting at the first
raised exception (Python evaluation order). -/
def pyFromDictProps (rec : String → Json → Except PyErr PyVal) :
    List (String × PropSchema) → List (String × Json) →
    Except PyErr (List (String × PyVal))
  | [], _ => .ok []
  | (p, s) :: rest, l =>
    match pyFromDictProp rec p s l with
    | .error e => .error e
    | .ok v =>
      match pyFromDictProps rec rest l with
      | .ok vs => .ok ((p, v) :: vs)
      | .error e => .error e

/-- `{Name}Marshaller.from_dict(data)` (lines 702–729): the falsy-data
guard, then one constructor argument per schema property, then pydantic
construction.  The `Nat` argument bounds the by-name recursion depth
between entity marshallers (Python's recursion limit). -/
def pyFromDict : Nat → SchemaDoc → String → Json → Except PyErr PyVal
  | 0, _, _, _ => .error .recursionError
  | fuel + 1, doc, name, data =>
    match lookupSchema doc name with
    | none => .error (.nameError name)
    | some sch =>
      if data.falsy then .error (.valueError (name ++ " data is required"))
      else
        match data with
        | .obj l =>
          match pyFromDictProps (pyFromDict fuel doc) sch.properties l with
          | .ok fields => pydanticInit name sch fields
          | .error e => .error e
        | _ => .error .attributeError

/-- Map a referenced marshaller's `to_dict` over a Python list. -/
def pyToDictList (rec : String → PyVal → Except PyErr Json)
    (target : String) : List PyVal → Except PyErr (List Json)
  | [] => .ok []
  | v :: rest =>
    match rec target v with
    | .error e => .error e
    | .ok j =>
      match pyToDictList rec target rest with
      | .ok js => .ok (j :: js)
      | .error e => .error e

/-- Conversion of one attribute value by the generated `to_dict` (lines
738–751): a `lineItems` `$ref` and any array-of-`$ref` map the referenced
`to_dict` over the value (iterating `None` is a `TypeError`, iterating a
model instance fails inside the comprehension), any other `$ref`
delegates to the referenced `to_dict`, and everything else is emitted
unchanged. -/
def pyToDictVal (rec : String → PyVal → Except PyErr Json)
    (p : String) (s : PropSchema) (v : PyVal) : Except PyErr Json :=
  match s.ref with
  | some r =>
    if p = "lineItems" then
      match v with
      | .list elems =>
        match pyToDictList rec (refLast r) elems with
        | .ok js => .ok (.arr js)
        | .error e => .error e
      | .prim .null => .error .typeError
      | _ => .error .attributeError
    else
      rec (refLast r) v
  | none =>
    if isArrayRefProp s then
      match v with
      | .list elems =>
        match pyToDictList rec (arrayRefTarget s) elems with
        | .ok js => .ok (.arr js)
        | .error e => .error e
      | .prim .null => .error .typeError
      | _ => .error .attributeError
    else
      .ok v.asWire

/-- One emitted dictionary entry: the `obj.{name}` attribute access
followed by the value conversion. -/
def pyToDictProp (rec : String → PyVal → Except PyErr Json)
    (p : String) (s : PropSchema) (fields : List (String × PyVal)) :
    Except PyErr Json :=
  match lookupField fields p with
  | none => .error .attributeError
  | some v => pyToDictVal rec p s v

/-- The dictionary-entry loop, in property declaration order. -/
def pyToDictProps (rec : String → PyVal → Except PyErr Json) :
    List (String × PropSchema) → List (String × PyVal) →
    Except PyErr (List (String × Json))
  | [], _ => .ok []
  | (p, s) :: rest, fields =>
    match pyToDictProp rec p s fields with
    | .error e => .error e
    | .ok j =>
      match pyToDictProps rec rest fields with
      | .ok entries => .ok ((p, j) :: entries)
      | .error e => .error e

/-- `{Name}Marshaller.to_dict(obj)` (lines 731–756): one key per schema
property in declaration order. -/
def pyToDict : Nat → SchemaDoc → String → PyVal → Except PyErr Json
  | 0, _, _, _ => .error .recursionError
  | fuel + 1, doc, name, x =>
    match lookupSchema doc name with
    | none => .error (.nameError name)
    | some sch =>
      match x with
      | .model _ fields =>
        match pyToDictProps (pyToDict fuel doc) sch.properties fields with
        | .ok entries => .ok (.obj entries)
        | .error e => .error e
      | _ => .error .attributeError

/-! ## `_process_schema` validation rules (generator.py lines 137–195)

Per property, `_process_schema` appends validation entries in source
order: pattern, enum, numeric minimum, numeric maximum (both only for
`integer`/`number` typed properties), then format (`date-time` or
`date`). -/

/-- The kinds of validation entries `_process_schema` produces, with
their parameters. -/
inductive VRuleKind where
  | patternOf (pat : String)
  | enumOf (vals : List String)
  | minOf (bound : Int)
  | maxOf (bound : Int)
  | dateTimeFmt
  | dateFmt
  deriving Repr, DecidableEq

/-- The validation entries produced for one property, in emission order
(each entry carries the field name, as in the source's
`{'field': prop_name, 'code': ...}` dictionaries). -/
def propValidations (p : String) (s : PropSchema) : List (String × VRuleKind) :=
  (match s.pattern with
   | some pat => [(p, .patternOf pat)]
   | none => []) ++
  (match s.enumVals with
   | some vs => [(p, .enumOf vs)]
   | none => []) ++
  (if s.type = some "integer" || s.type = some "number" then
    (match s.minimum with
     | some b => [(p, .minOf b)]
     | none => []) ++
    (match s.maximum with
     | some b => [(p, .maxOf b)]
     | none => [])
   else []) ++
  (match s.format with
   | some f =>
     if f = "date-time" then [(p, .dateTimeFmt)]
     else if f = "date" then [(p, .dateFmt)]
     else []
   | none => [])

/-- The position of each rule kind in the fixed evaluation order claimed
by the spec: pattern, enum, numeric bounds (minimum before maximum),
format. -/
def ruleOrderIndex : VRuleKind → Nat
  | .patternOf _ => 0
  | .enumOf _ => 1
  | .minOf _ => 2
  | .maxOf _ => 3
  | .dateTimeFmt => 4
  | .dateFmt => 4

/-- Modelled from the spec: the validator template
(`validator.py.template`, not part of the sources) applies a property's
`ValidationRule`s in list order and stops at the first failing rule,
returning it; `check` abstracts the per-rule predicate. -/
def applyRules (check : String × VRuleKind → Bool) :
    List (String × VRuleKind) → Option (String × VRuleKind)
  | [] => none
  | r :: rest => if check r then applyRules check rest else some r

/-! ## The two `_generate_validator` definitions (generator.py)

The class defines `_generate_validator` twice; by Python attribute
shadowing only the second (lines 831–861) is callable.  Both ignore the
loaded schema entirely — the parameter below mirrors `self.schema` and is
unused, which is the point of the emitted-validator claims. -/

/-- The first, shadowed `_generate_validator` (lines 223–337): a fixed
hard-coded validator for the bill event, independent of the schema. -/
def generateValidatorShadowed (_schema : SchemaDoc) : List String :=
  [ "from typing import Any, Dict, List, Optional",
    "from datetime import datetime",
    "from .models import *",
    "",
    "class ValidationError(Exception):",
    "    \"\"\"Raised when event validation fails\"\"\"",
    "    pass",
    "",
    "class Validator:",
    "    \"\"\"Validates events against schema\"\"\"",
    "",
    "    @staticmethod",
    "    def validate_event(event_type: str, event_data: Dict[str, Any]) -> None:",
    "        \"\"\"",
    "        Validate event data against schema",
    "        :param event_type: Type of event (e.g., BillApproved)",
    "        :param event_data: Event data to validate",
    "        :raises: ValidationError if validation fails",
    "        \"\"\"",
    "        try:",
    "            # Validate required fields",
    "            if \"bill\" not in event_data:",
    "                raise ValidationError(\"Missing required field: bill\")",
    "            if \"project\" not in event_data:",
    "                raise ValidationError(\"Missing required field: project\")",
    "            if \"lineItems\" not in event_data:",
    "                raise ValidationError(\"Missing required field: lineItems\")",
    "            if \"approval\" not in event_data:",
    "                raise ValidationError(\"Missing required field: approval\")",
    "            if \"eventMetadata\" not in event_data:",
    "                raise ValidationError(\"Missing required field: eventMetadata\")",
    "",
    "            # Validate bill fields",
    "            bill = event_data[\"bill\"]",
    "            required_bill_fields = [",
    "                \"billId\", \"billNumber\", \"tradePartnerBillNumber\",",
    "                \"tradePartnerId\", \"billType\", \"billSource\",",
    "                \"billDate\", \"billStatus\", \"totalAmountInCents\"",
    "            ]",
    "            for field in required_bill_fields:",
    "                if field not in bill:",
    "                    raise ValidationError(f\"Missing required bill field: {field}\")",
    "",
    "            # Validate date formats",
    "            date_fields = [\"billDate\", \"dueDate\", \"paidDate\", \"postedDate\"]",
    "            for field in date_fields:",
    "                if field in bill and bill[field]:",
    "                    try:",
    "                        datetime.strptime(bill[field], \"%Y-%m-%d\")",
    "                    except ValueError:",
    "                        raise ValidationError(f\"Invalid date format for {field}. Expected YYYY-MM-DD\")",
    "",
    "            # Validate integer fields",
    "            int_fields = [\"totalAmountInCents\", \"amountPaidInCents\"]",
    "            for field in int_fields:",
    "                if field in bill and bill[field] is not None:",
    "                    if not isinstance(bill[field], int):",
    "                        raise ValidationError(f\"{field} must be an integer\")",
    "",
    "            # Validate project fields",
    "            project = event_data[\"project\"]",
    "            required_project_fields = [",
    "                \"projectId\", \"projectName\", \"lotType\", \"projectStatus\"",
    "            ]",
    "            for field in required_project_fields:",
    "                if field not in project:",
    "                    raise ValidationError(f\"Missing required project field: {field}\")",
    "",
    "            # Validate line items",
    "            line_items = event_data[\"lineItems\"]",
    "            if not isinstance(line_items, list):",
    "                raise ValidationError(\"lineItems must be an array\")",
    "",
    "            required_line_item_fields = [",
    "                \"lineId\", \"amountInCents\", \"costCodeId\",",
    "                \"costCodeNumber\", \"costClassification\"",
    "            ]",
    "            for item in line_items:",
    "                for field in required_line_item_fields:",
    "                    if field not in item:",
    "                        raise ValidationError(f\"Missing required line item field: {field}\")",
    "                if not isinstance(item[\"amountInCents\"], int):",
    "                    raise ValidationError(\"Line item amountInCents must be an integer\")",
    "",
    "            # Validate approval",
    "            approval = event_data[\"approval\"]",
    "            if \"approvalStatus\" not in approval:",
    "                raise ValidationError(\"Missing required approval field: approvalStatus\")",
    "",
    "            # Validate event metadata",
    "            metadata = event_data[\"eventMetadata\"]",
    "            required_metadata_fields = [",
    "                \"idempotencyKey\", \"correlationId\",",
    "                \"eventTimeStamp\", \"schemaVersion\"",
    "            ]",
    "            for field in required_metadata_fields:",
    "                if field not in metadata:",
    "                    raise ValidationError(f\"Missing required metadata field: {field}\")",
    "",
    "            # Validate timestamp format",
    "            try:",
    "                datetime.strptime(metadata[\"eventTimeStamp\"], \"%Y-%m-%dT%H:%M:%S%z\")",
    "            except ValueError:",
    "                raise ValidationError(\"Invalid eventTimeStamp format. Expected ISO 8601 UTC format\")",
    "",
    "        except KeyError as e:",
    "            raise ValidationError(f\"Missing required field: {str(e)}\")",
    "        except Exception as e:",
    "            raise ValidationError(f\"Validation error: {str(e)}\")",
    "" ]

/-- The second, effective `_generate_validator` (lines 831–861): the
emitted validator just delegates to the hard-coded
`BillEventMarshaller`, again independent of the schema. -/
def generate_validator (_schema : SchemaDoc) : List String :=
  [ "from typing import Any, Dict, List, Optional",
    "from datetime import datetime",
    "from generated.python.models import *",
    "from generated.python.marshaller import BillEventMarshaller",
    "",
    "class ValidationError(Exception):",
    "    \"\"\"Raised when event validation fails\"\"\"",
    "    pass",
    "",
    "class Validator:",
    "    \"\"\"Validates events against schema\"\"\"",
    "",
    "    @staticmethod",
    "    def validate_event(event_type: str, event_data: Dict[str, Any]) -> None:",
    "        \"\"\"",
    "        Validate event data against schema",
    "        :param event_type: Type of event (e.g., BillApproved)",
    "        :param event_data: Event data to validate",
    "        :raises: ValidationError if validation fails",
    "        \"\"\"",
    "        try:",
    "            # Create and validate event instance",
    "            BillEventMarshaller.from_dict(event_data)",
    "        except Exception as e:",
    "            raise ValidationError(f\"Validation error: {str(e)}\")",
    "" ]

/-- Does the second list start with the first? -/
def startsWithList : List Char → List Char → Bool
  | [], _ => true
  | _ :: _, [] => false
  | c :: cs, d :: ds => c = d && startsWithList cs ds

/-- Does the second list occur as a contiguous sublist of the first? -/
def hasSubList (sub : List Char) : List Char → Bool
  | [] => sub.isEmpty
  | c :: cs => startsWithList sub (c :: cs) || hasSubList sub cs

/-- Substring occurrence inside one string. -/
def containsSub (s sub : String) : Bool :=
  hasSubList sub.data s.data

/-- Does one of the lines mention the token as a substring? -/
def mentions (lines : List String) (tok : String) : Bool :=
  lines.any (fun ln => containsSub ln tok)

/-- The declared entity names of a document. -/
def schemaNames (doc : SchemaDoc) : List String := doc.map (·.1)

/-- Are the keys of an association list pairwise distinct? -/
def keysUnique {α : Type} : List (String × α) → Bool
  | [] => true
  | (k, _) :: rest => !(rest.any (fun e => e.1 == k)) && keysUnique rest

/-! ## Generation pipelines (for the fail-fast loading claim)

`PythonGenerator.initialize` loads the YAML and runs `validate_spec`
before `generate()` writes any artifact (it calls `sys.exit(1)` on
failure); `generate_typescript_bindings` reads
`openapi_schema['components']['schemas']` before writing any file. -/

/-- `initialize` followed by `generate()`: artifacts (here: the models
lines) are only produced when `validate_spec` passed. -/
def pythonRun (spec : SpecDoc) : Except String (List String) :=
  match validate_spec spec with
  | .error e => .error e
  | .ok _ => generateModels (spec.schemas?.getD [])

/-- The `components['schemas']` access of `generate_typescript_bindings`
(line 130), before any output file is opened: a `KeyError` aborts the
run. -/
def tsComponents (spec : SpecDoc) : Except String SchemaDoc :=
  match spec.schemas? with
  | none => .error "KeyError"
  | some doc => .ok doc

/-- Which generated-Python failure modes fall inside the spec's
`from_wire` error taxonomy `{ParseError, ValidationError,
UnmarshalError}`: only the pydantic `ValidationError` does — the
generated Python code has no ParseError/UnmarshalError counterpart, and
`ValueError`/`KeyError`/`AttributeError`/`TypeError` are none of the
three. -/
def pyErrInSpecTaxonomy : PyErr → Bool
  | .validationError _ => true
  | _ => false

/-! ## Conformance of a Python value to an entity schema

`conforms fuel doc name x` says `x` is an instance of entity `name` whose
fields line up with the schema properties: reference-typed (and
array-of-reference) properties hold (lists of) conforming instances —
in particular non-null even when optional — and all other properties hold
JSON primitives that pydantic construction accepts.  This is the
precondition of the amended round-trip claim. -/

def elemsConform (rec : String → PyVal → Bool) (target : String) :
    List PyVal → Bool
  | [] => true
  | v :: rest => rec target v && elemsConform rec target rest

def propConforms (rec : String → PyVal → Bool) (s : PropSchema)
    (isReq : Bool) (v : PyVal) : Bool :=
  match s.ref with
  | some r => rec (refLast r) v
  | none =>
    if isArrayRefProp s then
      match v with
      | .list elems => elemsConform rec (arrayRefTarget s) elems
      | _ => false
    else
      match v with
      | .prim _ =>
        match pyAnnOf s with
        | some ann => pyFieldOk ann (!isReq) s.format v
        | none => false
      | _ => false

def fieldsConform (rec : String → PyVal → Bool) :
    List (String × PropSchema) → List String → List (String × PyVal) → Bool
  | [], _, [] => true
  | (p, s) :: ps, req, (q, v) :: fs =>
    q == p && propConforms rec s (req.contains p) v &&
      fieldsConform rec ps req fs
  | _, _, _ => false

def conforms : Nat → SchemaDoc → String → PyVal → Bool
  | 0, _, _, _ => false
  | fuel + 1, doc, name, x =>
    match x with
    | .model n fields =>
      n == name &&
        (match lookupSchema doc name with
         | none => false
         | some sch =>
           fieldsConform (conforms fuel doc) sch.properties sch.required fields)
    | _ => false

/-- The document-level side conditions under which the generated Python
marshaller pair is generated at all and composes: every entity has at
least one property (`list(properties.keys())[-1]` raises on an empty
entity), property names are unique within an entity (YAML mappings), and
no direct-`$ref` property is named `lineItems` (the marshaller
special-cases that name as an array). -/
def pyDocOk (doc : SchemaDoc) : Bool :=
  doc.all (fun e =>
    !e.2.properties.isEmpty && keysUnique e.2.properties &&
      e.2.properties.all (fun pp => !(pp.2.ref.isSome && pp.1 == "lineItems")))

/-! ## Concrete schemas used by witnesses and counterexamples -/

def billSchema : PropSchema :=
  .object [("billId", .scalar "string"), ("amountInCents", .scalar "integer")]
    ["billId", "amountInCents"]

def billEventSchema : PropSchema :=
  .object [("bill", .refTo "#/components/schemas/Bill")] ["bill"]

def billDoc : SchemaDoc := [("Bill", billSchema), ("BillEvent", billEventSchema)]

def projectSchema : PropSchema :=
  .object [("projectId", .scalar "string")] ["projectId"]

def twoEntityDoc : SchemaDoc := [("Bill", billSchema), ("Project", projectSchema)]

def fooSchema : PropSchema := .object [("q", .scalar "string")] []

def fooDoc : SchemaDoc := [("Foo", fooSchema)]

def itemSchema : PropSchema := .object [("q", .scalar "string")] ["q"]

def orderSchema : PropSchema :=
  .object [("items", .arrayOf (.refTo "#/components/schemas/Item"))] ["items"]

def orderDoc : SchemaDoc := [("Item", itemSchema), ("Order", orderSchema)]

def bazSchema : PropSchema := .object [("q", .scalar "string")] ["q"]

/-- An entity with one optional reference property. -/
def optRefSchema : PropSchema :=
  .object [("bar", .refTo "#/components/schemas/Baz")] []

def optRefDoc : SchemaDoc := [("Baz", bazSchema), ("OptHolder", optRefSchema)]

/-- The number of `model_order` passes `_generate_models` performs: one
per hard-coded name present in the document. -/
def modelPassCount (doc : SchemaDoc) : Nat :=
  (modelOrder.filter (fun m => (lookupSchema doc m).isSome)).length

/-- Replace the `default` key of a node (all other keys unchanged). -/
def PropSchema.withDefault : PropSchema → Option Json → PropSchema
  | .mk r t i f pa e mn mx ps req d _, dflt => .mk r t i f pa e mn mx ps req d dflt

/-- Replace the `required` list of a node (all other keys unchanged). -/
def PropSchema.withRequired : PropSchema → List String → PropSchema
  | .mk r t i f pa e mn mx ps _ d dflt, req => .mk r t i f pa e mn mx ps req d dflt

/-! # The claims -/

/-- **C9.** Loading fails fast with the missing-schemas-section error when
the document lacks a `components.schemas` section — the Python run
produces no artifact and the TypeScript generator aborts at the
`components['schemas']` access — and `validate_spec` accepts every parsed
document that has the section. -/
theorem c9_load_fail_fast (spec : SpecDoc) :
    (spec.schemas? = none →
      pythonRun spec = .error "Schema must contain components.schemas section" ∧
      tsComponents spec = .error "KeyError") ∧
    (∀ doc, spec.schemas? = some doc → validate_spec spec = .ok ()) := by
  obtain ⟨inner⟩ := spec
  constructor
  · intro h
    cases inner with
    | none => exact ⟨rfl, rfl⟩
    | some i =>
      cases i with
      | none => exact ⟨rfl, rfl⟩
      | some doc => simp [SpecDoc.schemas?] at h
  · intro doc h
    cases inner with
    | none => simp [SpecDoc.schemas?] at h
    | some i =>
      cases i with
      | none => simp [SpecDoc.schemas?] at h
      | some d => rfl

/-- Witness for C9 at concrete documents: one lacking the section, one
carrying it. -/
theorem c9_load_fail_fast_witness :
    pythonRun ⟨none⟩ = .error "Schema must contain components.schemas section" ∧
    validate_spec ⟨some (some billDoc)⟩ = .ok () :=
  ⟨((c9_load_fail_fast ⟨none⟩).1 rfl).1,
   (c9_load_fail_fast ⟨some (some billDoc)⟩).2 billDoc rfl⟩

/-- **C10.** The generated Python `from_dict` rejects a falsy wire
mapping — both `None` and `{}` — with the `"{name} data is required"`
`ValueError`, before any field conversion and regardless of the entity's
properties or required list. -/
theorem c10_falsy_rejected (fuel : Nat) (doc : SchemaDoc) (name : String)
    (sch : PropSchema) (h : lookupSchema doc name = some sch) :
    pyFromDict (fuel + 1) doc name .null =
      .error (.valueError (name ++ " data is required")) ∧
    pyFromDict (fuel + 1) doc name (.obj []) =
      .error (.valueError (name ++ " data is required")) := by
  constructor <;> simp [pyFromDict, h, Json.falsy]

/-- Witness for C10 on an entity with an empty `required` list. -/
theorem c10_falsy_rejected_witness :
    pyFromDict 1 fooDoc "Foo" .null = .error (.valueError "Foo data is required") ∧
    pyFromDict 1 fooDoc "Foo" (.obj []) = .error (.valueError "Foo data is required") :=
  c10_falsy_rejected 0 fooDoc "Foo" fooSchema rfl

/-- **C6, counterexample.** For a document declaring only the entity
`Foo`, the emitted validator still names `BillEventMarshaller` (the
callable `_generate_validator`) and the bill-event field `bill` (the
shadowed first definition): the generated validation logic contains
domain names the document does not declare. -/
theorem c6_counterexample :
    schemaNames fooDoc = ["Foo"] ∧
    mentions (generate_validator fooDoc) "BillEventMarshaller" = true ∧
    mentions (generateValidatorShadowed fooDoc) "Missing required field: bill" = true :=
  ⟨rfl, by decide, by decide⟩

/-- **C6, amended.** The emitted validator is not data-driven: both
`_generate_validator` definitions produce the same fixed code for every
schema document, and that code hard-codes bill-event domain names
(`BillEventMarshaller`; the required-field list starting with `bill`)
that an arbitrary document does not declare. -/
theorem c6_amended :
    (∀ d1 d2 : SchemaDoc, generate_validator d1 = generate_validator d2 ∧
      generateValidatorShadowed d1 = generateValidatorShadowed d2) ∧
    mentions (generate_validator []) "BillEventMarshaller" = true ∧
    mentions (generateValidatorShadowed []) "Missing required field: bill" = true :=
  ⟨fun _ _ => ⟨rfl, rfl⟩, by decide, by decide⟩

/-- **C7, counterexample.** With `Bill` and `Project` declared (each
once), the emitted model code declares each class twice; with only `Foo`
declared, no class is emitted at all — the emitter does not emit exactly
one structure declaration per entity. -/
theorem c7_counterexample :
    (∃ lines, generateModels twoEntityDoc = .ok lines ∧
      lines.count "class Bill(BaseModel):" = 2) ∧
    (∃ lines, generateModels fooDoc = .ok lines ∧
      lines.count "class Foo(BaseModel):" = 0) :=
  ⟨⟨_, rfl, by decide⟩, ⟨_, rfl, by decide⟩⟩

/-- Each `model_order` pass of `_generate_models` contributes the same
block, because `_generate_model` ignores its arguments. -/
theorem flatMap_modelOrder_replicate (doc : SchemaDoc) (ms : List String) :
    (ms.flatMap (fun m => match lookupSchema doc m with
      | some s => generateModel doc m s ++ [""]
      | none => [])) =
    (List.replicate ((ms.filter (fun m => (lookupSchema doc m).isSome)).length)
      (generateModel doc "" PropSchema.base ++ [""])).flatten := by
  induction ms with
  | nil => rfl
  | cons m rest ih =>
    cases h : lookupSchema doc m with
    | none => simpa [List.flatMap_cons, h, List.filter_cons] using ih
    | some s =>
      simp only [List.flatMap_cons, h, List.filter_cons, Option.isSome_some,
        if_pos, List.length_cons, List.replicate_succ, List.flatten_cons, ih]
      rfl

/-- **C7, amended.** `_generate_models` does not emit one declaration per
entity: it emits the import header followed by `k` identical copies of a
block (where `k` is the number of hard-coded `model_order` names —
`Bill`, `Project`, `LineItem`, `Approval`, `Metadata`, `BillEvent` —
present in the document), each block re-declaring every entity of the
document; in particular a document containing none of those six names
yields no class declarations at all. -/
theorem c7_amended (doc : SchemaDoc) (lines : List String)
    (h : generateModels doc = .ok lines) :
    (∀ n1 s1 n2 s2, generateModel doc n1 s1 = generateModel doc n2 s2) ∧
    lines = pyModelHeader ++
      (List.replicate (modelPassCount doc)
        (generateModel doc "" PropSchema.base ++ [""])).flatten ∧
    (modelPassCount doc = 0 → lines = pyModelHeader) := by
  have hlines : lines = pyModelHeader ++
      (List.replicate (modelPassCount doc)
        (generateModel doc "" PropSchema.base ++ [""])).flatten := by
    unfold generateModels at h
    split at h
    · exact absurd h (by simp)
    · cases h
      rw [flatMap_modelOrder_replicate]
      rfl
  refine ⟨fun n1 s1 n2 s2 => rfl, hlines, fun hk => ?_⟩
  rw [hlines, hk]
  simp

/-- Witness for C7 (amended) at the two-entity document. -/
theorem c7_amended_witness :
    ∃ lines, generateModels twoEntityDoc = .ok lines ∧
      lines = pyModelHeader ++
        (List.replicate (modelPassCount twoEntityDoc)
          (generateModel twoEntityDoc "" PropSchema.base ++ [""])).flatten :=
  ⟨_, rfl, (c7_amended twoEntityDoc _ rfl).2.1⟩

/-- **C4, counterexample.** The TypeScript generator emits a bare
`z.string()` for a `date`-format string (generate_typescript.py line 46),
so the generated TypeScript date validation *accepts* `"2024-13-40"` —
the claim that `"2024-13-40"` fails date validation in every target
language is false. -/
theorem c4_counterexample :
    generate_zod_schema 1 (.scalarFmt "string" "date") "Bill_billDate" = .zString ∧
    zodCheck 1 []
      (generate_zod_schema 1 (.scalarFmt "string" "date") "Bill_billDate")
      (.str "2024-13-40") = .ok (.str "2024-13-40") :=
  ⟨rfl, rfl⟩

/-- **C4, amended.** Per language and format the generated checks are:
the TypeScript `date` validator is emitted identically to an
unconstrained string (so it accepts every string, including
`"2024-13-40"`); the TypeScript `date-time` validator (zod `datetime()`)
accepts `"2024-01-15T10:00:00Z"` and rejects the space-separated
`"2024-01-15 10:00:00"`; the Python `date` validation
(`datetime.strptime(v, "%Y-%m-%d")`, produced as the `date` rule by
`_process_schema`) rejects `"2024-13-40"` and accepts `"2024-01-15"`,
but also accepts the non-`YYYY-MM-DD` spelling `"2024-1-5"`, so it is not
an exact `YYYY-MM-DD` match either. -/
theorem c4_amended :
    (∀ fuel name, generate_zod_schema fuel (.scalarFmt "string" "date") name =
      generate_zod_schema fuel (.scalar "string") name) ∧
    (∀ fuel env s, zodCheck (fuel + 1) env .zString (.str s) = .ok (.str s)) ∧
    zodCheck 1 [] .zStringDatetime (.str "2024-01-15T10:00:00Z") =
      .ok (.str "2024-01-15T10:00:00Z") ∧
    zodCheck 1 [] .zStringDatetime (.str "2024-01-15 10:00:00") =
      .error [.invalid] ∧
    (∀ p, propValidations p (.scalarFmt "string" "date") = [(p, .dateFmt)]) ∧
    strptimeDateOk "2024-13-40" = false ∧
    strptimeDateOk "2024-01-15" = true ∧
    strptimeDateOk "2024-1-5" = true := by
  refine ⟨fun fuel name => ?_, fun fuel env s => rfl, rfl, rfl,
    fun p => rfl, by decide, by decide, by decide⟩
  cases fuel <;> rfl

/-- A list starts with itself (plus anything appended). -/
theorem startsWithList_self_append (sub rest : List Char) :
    startsWithList sub (sub ++ rest) = true := by
  induction sub with
  | nil => rfl
  | cons c cs ih => simp [startsWithList, ih]

/-- A sublist occurrence in the right part survives prepending. -/
theorem hasSubList_append_right (sub a : List Char) :
    ∀ b, hasSubList sub b = true → hasSubList sub (a ++ b) = true := by
  induction a with
  | nil => intro b h; simpa using h
  | cons c cs ih =>
    intro b h
    simp only [List.cons_append, hasSubList, Bool.or_eq_true]
    exact Or.inr (ih b h)

/-- A list that begins with the pattern contains it. -/
theorem hasSubList_self_append (sub rest : List Char) (h : sub ≠ []) :
    hasSubList sub (sub ++ rest) = true := by
  cases sub with
  | nil => exact absurd rfl h
  | cons c cs =>
    simp only [List.cons_append, hasSubList, Bool.or_eq_true]
    exact Or.inl (startsWithList_self_append (c :: cs) rest)

/-- **C3, counterexample.** `billId` is in `Bill`'s required list, yet the
TypeScript interface emitter emits it with the optional marker
(`billId?: string;`) — it marks every property optional. -/
theorem c3_counterexample :
    billSchema.required = ["billId", "amountInCents"] ∧
    tsInterfaceFields billSchema "Bill" =
      ["  billId?: string;", "  amountInCents?: number;"] :=
  ⟨rfl, rfl⟩

/-- **C3, amended.** The Python model emitter and the zod validator
derive optionality exactly from the `required` list and never from a
default value: the Python field line is unchanged under any `default`
key, wraps the type in `Optional[...]` whenever the property is not
required, the modelled pydantic semantics accepts `None` for optional
fields and rejects it for required non-`Any` scalar fields, and each zod
object field's required flag is exactly membership in `required`
(both are also unchanged under any `default`).  The TypeScript
*interface* emitter violates the claim: its output is independent of the
`required` list and every property is emitted with the `?` marker. -/
theorem c3_amended :
    (∀ p s req d, pyFieldLine p (s.withDefault d) req = pyFieldLine p s req) ∧
    (∀ p s req, req.contains p = false →
      containsSub (pyFieldLine p s req) "Optional[" = true) ∧
    (∀ ann fmt, pyFieldOk ann true fmt (.prim .null) = true) ∧
    (∀ t fmt, t ≠ "Any" → pyFieldOk (.prim t) false fmt (.prim .null) = false) ∧
    (∀ rec props req name,
      (genZodFields rec props req name).map (fun f => (f.1, f.2.2)) =
        props.map (fun pp => (pp.1, req.contains pp.1))) ∧
    (∀ s name req, tsInterfaceFields (s.withRequired req) name =
      tsInterfaceFields s name) ∧
    (∀ s name pp, pp ∈ s.properties →
      ("  " ++ pp.1 ++ "?: " ++ getTsType pp.2 (name ++ "_" ++ pp.1) ++ ";") ∈
        tsInterfaceFields s name) := by
  refine ⟨fun p s req d => by cases s; rfl,
    fun p s req h => ?_,
    fun ann fmt => rfl,
    fun t fmt h => by simp [pyFieldOk, PyVal.isNull, pyAnnMatches, pyPrimOk, h],
    fun rec props req name => ?_,
    fun s name req => by cases s; rfl,
    fun s name pp h => ?_⟩
  · simp only [pyFieldLine, h]
    simp only [containsSub, String.data_append]
    apply hasSubList_append_right
    exact hasSubList_self_append "Optional[".data _ (by decide)
  · induction props with
    | nil => rfl
    | cons pp rest ih => cases pp with
      | mk p ps => simp [genZodFields, ih]
  · have : ("  " ++ pp.1 ++ "?: " ++ getTsType pp.2 (name ++ "_" ++ pp.1) ++ ";") ∈
        ((match pp.2.description with
          | some d => [ s!"  /** {d} */" ]
          | none => []) ++
          [ s!"  {pp.1}?: " ++ getTsType pp.2 (name ++ "_" ++ pp.1) ++ ";" ]) := by
      apply List.mem_append_right
      simp only [List.mem_singleton]
      rfl
    exact List.mem_flatMap.mpr ⟨pp, h, this⟩

/-- Witness for C3 (amended): an optional property's Python line carries
the `Optional[` wrapper; a required `str` field rejects `None`; the `q`
property of `Foo` gets the TS optional marker. -/
theorem c3_amended_witness :
    containsSub (pyFieldLine "q" (.scalar "string") []) "Optional[" = true ∧
    pyFieldOk (.prim "str") false none (.prim .null) = false ∧
    ("  " ++ "q" ++ "?: " ++ getTsType (.scalar "string") ("Foo" ++ "_" ++ "q") ++ ";") ∈
      tsInterfaceFields fooSchema "Foo" := by
  refine ⟨c3_amended.2.1 "q" (.scalar "string") [] rfl,
    c3_amended.2.2.2.1 "str" none (by decide),
    ?_⟩
  exact c3_amended.2.2.2.2.2.2 fooSchema "Foo" ("q", .scalar "string") (by simp [fooSchema, PropSchema.object, PropSchema.properties])

/-- Append preserves `≤`-pairwise order when the parts are separated by a
bound. -/
theorem pairwise_le_append_of_bound {α : Type} (f : α → Nat) (k : Nat)
    {l1 l2 : List α}
    (h1 : List.Pairwise (fun a b => f a ≤ f b) l1)
    (h2 : List.Pairwise (fun a b => f a ≤ f b) l2)
    (hb1 : ∀ x ∈ l1, f x ≤ k) (hb2 : ∀ y ∈ l2, k ≤ f y) :
    List.Pairwise (fun a b => f a ≤ f b) (l1 ++ l2) := by
  rw [List.pairwise_append]
  exact ⟨h1, h2, fun a ha b hb => le_trans (hb1 a ha) (hb2 b hb)⟩

/-- **C8.** The validation entries produced for a property come out in
the claimed fixed order — pattern, enum, numeric bounds (minimum before
maximum), format — and the (spec-modelled) rule runner is fail-fast: when
it reports a rule, that rule failed, every rule produced before it
passed, and it reports nothing when every rule passes. -/
theorem c8_rule_order_fail_fast :
    (∀ p s, List.Pairwise (fun a b => ruleOrderIndex a.2 ≤ ruleOrderIndex b.2)
      (propValidations p s)) ∧
    (∀ check rules r, applyRules check rules = some r →
      check r = false ∧ ∃ pre post, rules = pre ++ r :: post ∧
        ∀ x ∈ pre, check x = true) ∧
    (∀ check rules, (∀ x ∈ rules, check x = true) →
      applyRules check rules = none) := by
  refine ⟨fun p s => ?_, fun check rules => ?_, fun check rules => ?_⟩
  · cases s with
    | mk r t i fm pa e mn mx ps req d df =>
      simp only [propValidations, PropSchema.pattern, PropSchema.enumVals,
        PropSchema.minimum, PropSchema.maximum, PropSchema.format,
        PropSchema.type]
      cases pa <;> cases e <;> cases mn <;> cases mx <;> cases fm <;>
        dsimp only <;>
        split_ifs <;>
        simp_all [ruleOrderIndex, List.pairwise_cons, List.pairwise_append]
  · induction rules with
    | nil => intro r h; simp [applyRules] at h
    | cons a rest ih =>
      intro r h
      unfold applyRules at h
      by_cases hc : check a = true
      · rw [if_pos hc] at h
        obtain ⟨hcr, pre, post, heq, hpre⟩ := ih r h
        refine ⟨hcr, a :: pre, post, by rw [heq]; rfl, ?_⟩
        intro x hx
        rcases List.mem_cons.mp hx with rfl | hx2
        · exact hc
        · exact hpre x hx2
      · rw [if_neg hc] at h
        cases h
        exact ⟨Bool.not_eq_true _ ▸ (by simpa using hc), [], rest, rfl, by simp⟩
  · induction rules with
    | nil => intro _; rfl
    | cons a rest ih =>
      intro h
      unfold applyRules
      rw [if_pos (h a (List.mem_cons_self a rest))]
      exact ih (fun x hx => h x (List.mem_cons_of_mem a hx))

/-- Witness for C8: an `integer` property with both bounds yields the
rules `[minimum, maximum]` in order; a checker failing exactly on the
maximum rule makes the runner stop there, with the minimum rule having
passed; an all-pass checker yields no report. -/
theorem c8_rule_order_fail_fast_witness :
    propValidations "amount"
      (.mk none (some "integer") none none none none (some 0) (some 100) [] [] none none) =
      [("amount", .minOf 0), ("amount", .maxOf 100)] ∧
    ((fun r => r.2 == VRuleKind.minOf 0) ("amount", VRuleKind.maxOf 100) = false ∧
      ∃ pre post,
        [("amount", VRuleKind.minOf 0), ("amount", VRuleKind.maxOf 100)] =
          pre ++ ("amount", VRuleKind.maxOf 100) :: post ∧
        ∀ x ∈ pre, (fun r => r.2 == VRuleKind.minOf 0) x = true) ∧
    applyRules (fun _ => true) [("amount", VRuleKind.minOf 0)] = none :=
  ⟨rfl,
   c8_rule_order_fail_fast.2.1 (fun r => r.2 == VRuleKind.minOf 0)
     [("amount", VRuleKind.minOf 0), ("amount", VRuleKind.maxOf 100)]
     ("amount", VRuleKind.maxOf 100) rfl,
   c8_rule_order_fail_fast.2.2 (fun _ => true) [("amount", VRuleKind.minOf 0)]
     (fun _ _ => rfl)⟩

/-- `validator.ts` binds each entity name to the zod schema generated
from its own definition. -/
theorem lookupZod_zodEnv (fuel : Nat) (doc : SchemaDoc) (name : String) :
    lookupZod (zodEnv fuel doc) name =
      (lookupSchema doc name).map (fun s => generate_zod_schema fuel s name) := by
  induction doc with
  | nil => rfl
  | cons e rest ih =>
    obtain ⟨k, v⟩ := e
    by_cases h : k = name
    · subst h; simp [zodEnv, lookupZod, lookupSchema]
    · simp only [zodEnv, lookupZod, lookupSchema, List.map_cons, if_neg h]
      exact ih

/-- Every schema property yields a zod object field whose required flag
is its membership in the `required` list. -/
theorem genZodFields_mem_of_prop (rec : PropSchema → String → ZodExpr)
    (props : List (String × PropSchema)) (req : List String) (name : String)
    (p : String) (ps : PropSchema) (h : (p, ps) ∈ props) :
    ∃ e, (p, e, req.contains p) ∈ genZodFields rec props req name := by
  induction props with
  | nil => cases h
  | cons pp rest ih =>
    obtain ⟨q, qs⟩ := pp
    rcases List.mem_cons.mp h with heq | hmem
    · cases heq
      exact ⟨_, List.mem_cons_self _ _⟩
    · obtain ⟨e, he⟩ := ih hmem
      exact ⟨e, List.mem_cons_of_mem _ he⟩

/-- A required object field absent from the wire object makes the zod
field check fail, with a `missingField` issue naming it among the
collected issues. -/
theorem zodCheckFields_missing (chk : ZodExpr → Json → Except (List ZodIssue) Json)
    (p : String) (e : ZodExpr) :
    ∀ (fields : List (String × ZodExpr × Bool)) (l : List (String × Json)),
    (p, e, true) ∈ fields → Json.lookup p l = none →
    ∃ issues, zodCheckFields chk fields l = .error issues ∧
      ZodIssue.missingField p ∈ issues := by
  intro fields
  induction fields with
  | nil => intro l h; cases h
  | cons f rest ih =>
    obtain ⟨q, fe, fb⟩ := f
    intro l hmem hnone
    rcases List.mem_cons.mp hmem with heq | hmem2
    · cases heq
      cases hrec : zodCheckFields chk rest l with
      | ok t =>
        exact ⟨[ZodIssue.missingField p],
          by simp [zodCheckFields, hnone, hrec], by simp⟩
      | error more =>
        exact ⟨ZodIssue.missingField p :: more,
          by simp [zodCheckFields, hnone, hrec], List.mem_cons_self _ _⟩
    · obtain ⟨issues, hres, hmemI⟩ := ih l hmem2 hnone
      cases hq : Json.lookup q l with
      | none =>
        cases fb with
        | true =>
          exact ⟨ZodIssue.missingField q :: issues,
            by simp [zodCheckFields, hq, hres], List.mem_cons_of_mem _ hmemI⟩
        | false =>
          exact ⟨issues, by simp [zodCheckFields, hq, hres], hmemI⟩
      | some v =>
        cases hv : chk fe v with
        | ok parsed =>
          exact ⟨issues, by simp [zodCheckFields, hq, hv, hres], hmemI⟩
        | error eh =>
          exact ⟨eh ++ issues, by simp [zodCheckFields, hq, hv, hres],
            List.mem_append_right _ hmemI⟩

/-- For an entity whose properties are all plain (no `$ref`, no
array-of-`$ref`), the generated `from_dict` constructor arguments are the
raw `data.get` values. -/
theorem pyFromDictProps_all_plain (rec : String → Json → Except PyErr PyVal)
    (props : List (String × PropSchema)) (l : List (String × Json))
    (h : ∀ q qs, (q, qs) ∈ props → qs.ref = none ∧ isArrayRefProp qs = false) :
    pyFromDictProps rec props l =
      .ok (props.map (fun pp => (pp.1, PyVal.prim ((Json.lookup pp.1 l).getD .null)))) := by
  induction props with
  | nil => rfl
  | cons pp rest ih =>
    obtain ⟨q, qs⟩ := pp
    obtain ⟨h1, h2⟩ := h q qs (List.mem_cons_self _ _)
    have ihr := ih (fun a b hb => h a b (List.mem_cons_of_mem _ hb))
    simp [pyFromDictProps, pyFromDictProp, h1, h2, ihr]

/-- With unique property names, looking up a mapped field list finds the
image of the property. -/
theorem lookupField_map_of_mem (f : String → PropSchema → PyVal)
    (props : List (String × PropSchema)) (p : String) (ps : PropSchema)
    (hu : keysUnique props = true) (h : (p, ps) ∈ props) :
    lookupField (props.map (fun pp => (pp.1, f pp.1 pp.2))) p = some (f p ps) := by
  induction props with
  | nil => cases h
  | cons pp rest ih =>
    obtain ⟨q, qs⟩ := pp
    simp only [keysUnique, Bool.and_eq_true, Bool.not_eq_true'] at hu
    obtain ⟨hnot, hrest⟩ := hu
    by_cases hq : q = p
    · subst hq
      rcases List.mem_cons.mp h with heq | hmem
      · cases heq
        simp [lookupField]
      · exfalso
        have : rest.any (fun x => x.1 == q) = true :=
          List.any_eq_true.mpr ⟨(q, ps), hmem, by simp⟩
        rw [this] at hnot
        cases hnot
    · rcases List.mem_cons.mp h with heq | hmem
      · cases heq; exact absurd rfl hq
      · simp only [List.map_cons, lookupField, if_neg hq]
        exact ih hrest hmem

/-- **C2, counterexample.** `items` is a required array-of-`$ref`
property of `Order`, yet the generated Python `from_dict` succeeds on a
wire mapping without it (the `data.get("items", [])` default silently
produces an empty list) — no `ValidationError` names the missing field. -/
theorem c2_counterexample :
    orderSchema.required = ["items"] ∧
    Json.lookup "items" [("other", Json.int 1)] = none ∧
    pyFromDict 2 orderDoc "Order" (.obj [("other", .int 1)]) =
      .ok (.model "Order" [("items", .list [])]) :=
  ⟨rfl, rfl, rfl⟩

/-- **C2, amended.**  (TS) For every entity and wire object missing a
required field, the generated TypeScript unmarshaller fails with a
validation error whose issues name the schema field.  (Python) For an
entity whose properties are all plain, a missing required non-`Any`
scalar field fails pydantic construction with a `ValidationError` naming
the field; but a required direct-`$ref` field absent from the wire raises
`KeyError`, and a required array-of-`$ref` field absent from the wire
silently becomes an empty list and `from_dict` succeeds. -/
theorem c2_amended :
    (∀ fuel doc name sch p ps l, lookupSchema doc name = some sch →
      sch.type = some "object" → (p, ps) ∈ sch.properties →
      sch.required.contains p = true → Json.lookup p l = none →
      ∃ issues, tsUnmarshal (fuel + 1) doc name (.wellFormed (.obj l)) =
        .error (.validationError issues) ∧ ZodIssue.missingField p ∈ issues) ∧
    (∀ fuel doc name sch p ps t l, lookupSchema doc name = some sch →
      (∀ q qs, (q, qs) ∈ sch.properties → qs.ref = none ∧ isArrayRefProp qs = false) →
      keysUnique sch.properties = true →
      (p, ps) ∈ sch.properties → sch.required.contains p = true →
      pyAnnOf ps = some (.prim t) → t ≠ "Any" →
      Json.lookup p l = none → Json.falsy (.obj l) = false →
      ∃ bad, pyFromDict (fuel + 1) doc name (.obj l) =
        .error (.validationError bad) ∧ p ∈ bad) ∧
    (∀ fuel doc name sch p ps rest r l, lookupSchema doc name = some sch →
      sch.properties = (p, ps) :: rest → ps.ref = some r → p ≠ "lineItems" →
      Json.lookup p l = none → Json.falsy (.obj l) = false →
      pyFromDict (fuel + 1) doc name (.obj l) = .error (.keyError p)) ∧
    (∀ fuel doc name sch p ps l, lookupSchema doc name = some sch →
      sch.properties = [(p, ps)] → ps.ref = none → isArrayRefProp ps = true →
      Json.lookup p l = none → Json.falsy (.obj l) = false →
      pyFromDict (fuel + 1) doc name (.obj l) =
        .ok (.model name [(p, .list [])])) := by
  refine ⟨?_, ?_, ?_, ?_⟩
  · intro fuel doc name sch p ps l hdoc hty hmem hreq hnone
    obtain ⟨sr, st, si, sf, sp, se, smn, smx, sprops, sreq, sd, sdf⟩ := sch
    simp only [PropSchema.type] at hty
    simp only [PropSchema.properties] at hmem
    simp only [PropSchema.required] at hreq
    subst hty
    obtain ⟨e, he⟩ := genZodFields_mem_of_prop (generate_zod_schema fuel)
      sprops sreq name p ps hmem
    rw [hreq] at he
    obtain ⟨issues, hres, hmemI⟩ :=
      zodCheckFields_missing (zodCheck fuel (zodEnv (fuel + 1) doc)) p e _ l he hnone
    refine ⟨issues, ?_, hmemI⟩
    have hgen : generate_zod_schema (fuel + 1)
        (PropSchema.mk sr (some "object") si sf sp se smn smx sprops sreq sd sdf)
        name =
        .zObject (genZodFields (generate_zod_schema fuel) sprops sreq name) := rfl
    simp only [tsUnmarshal, lookupZod_zodEnv, hdoc]
    simp [zodCheck, hgen, hres]
  · intro fuel doc name sch p ps t l hdoc hplain huniq hmem hreq hann htany hnone hfalsy
    have hprops := pyFromDictProps_all_plain (pyFromDict fuel doc)
      sch.properties l hplain
    have hlook2 : lookupField (sch.properties.map
        (fun pp2 => (pp2.1, PyVal.prim ((Json.lookup pp2.1 l).getD Json.null)))) p =
        some (PyVal.prim ((Json.lookup p l).getD Json.null)) :=
      lookupField_map_of_mem
        (fun q _ => PyVal.prim ((Json.lookup q l).getD .null))
        sch.properties p ps huniq hmem
    have hpmem : p ∈ sch.properties.filterMap (fun pp =>
        match lookupField (sch.properties.map
            (fun pp2 => (pp2.1, PyVal.prim ((Json.lookup pp2.1 l).getD .null)))) pp.1 with
        | some v =>
          match pyAnnOf pp.2 with
          | some ann =>
            if pyFieldOk ann (!sch.required.contains pp.1) pp.2.format v then none
            else some pp.1
          | none => some pp.1
        | none => some pp.1) := by
      apply List.mem_filterMap.mpr
      refine ⟨(p, ps), hmem, ?_⟩
      rw [hlook2]
      simp only [hnone, Option.getD_none, hann, hreq]
      simp [pyFieldOk, PyVal.isNull, pyAnnMatches, pyPrimOk, htany]
    refine ⟨_, ?_, hpmem⟩
    simp only [pyFromDict, hdoc, hfalsy, Bool.false_eq_true, if_false, hprops]
    simp only [pydanticInit]
    rw [if_neg (by simpa using List.ne_nil_of_mem hpmem)]
  · intro fuel doc name sch p ps rest r l hdoc hprops href hnli hnone hfalsy
    simp only [pyFromDict, hdoc, hfalsy, Bool.false_eq_true, if_false, hprops]
    simp [pyFromDictProps, pyFromDictProp, href, hnli, hnone]
  · intro fuel doc name sch p ps l hdoc hprops href harr hnone hfalsy
    have harr2 := harr
    simp only [isArrayRefProp, Bool.and_eq_true, decide_eq_true_eq] at harr2
    obtain ⟨ht, hi⟩ := harr2
    have htgt : pyAnnOf ps = some (.listOf (.refModel (arrayRefTarget ps))) := by
      cases hitems : ps.items with
      | none => rw [hitems] at hi; simp at hi
      | some inner =>
        rw [hitems] at hi
        dsimp only at hi
        cases hrr : inner.ref with
        | none => rw [hrr] at hi; simp at hi
        | some rr =>
          simp [pyAnnOf, href, ht, hitems, hrr, arrayRefTarget]
    have hdc : pyDateCheck ps.format (PyVal.list []) = true := by
      cases ps.format <;> rfl
    simp only [pyFromDict, hdoc, hfalsy, Bool.false_eq_true, if_false, hprops]
    simp only [pyFromDictProps, pyFromDictProp, href, harr, if_pos, hnone]
    simp only [Option.getD_none]
    simp [pyFromDictList, pydanticInit, lookupField, hprops, htgt, pyFieldOk,
      PyVal.isNull, pyAnnMatches, hdc]

/-- Witness for C2 (amended), all four parts at concrete inputs: the TS
unmarshaller names missing `amountInCents`; Python pydantic names missing
`amountInCents`; a wire object without `bill` raises `KeyError`; a wire
object without the required `items` array unmarshals successfully. -/
theorem c2_amended_witness :
    (∃ issues, tsUnmarshal 3 billDoc "Bill"
        (.wellFormed (.obj [("billId", .str "B1")])) =
        .error (.validationError issues) ∧
      ZodIssue.missingField "amountInCents" ∈ issues) ∧
    (∃ bad, pyFromDict 2 billDoc "Bill" (.obj [("billId", .str "B1")]) =
        .error (.validationError bad) ∧ "amountInCents" ∈ bad) ∧
    pyFromDict 2 billDoc "BillEvent" (.obj [("x", .int 1)]) =
      .error (.keyError "bill") ∧
    pyFromDict 2 orderDoc "Order" (.obj [("other", .int 1)]) =
      .ok (.model "Order" [("items", .list [])]) := by
  refine ⟨?_, ?_, ?_, ?_⟩
  · exact c2_amended.1 2 billDoc "Bill" billSchema "amountInCents"
      (.scalar "integer") [("billId", .str "B1")] rfl rfl (by simp [billSchema, PropSchema.object, PropSchema.properties]) rfl rfl
  · exact c2_amended.2.1 1 billDoc "Bill" billSchema "amountInCents"
      (.scalar "integer") "int" [("billId", .str "B1")] rfl
      (by intro q qs hq
          simp [billSchema, PropSchema.object, PropSchema.properties] at hq
          rcases hq with ⟨hq1, hq2⟩ | ⟨hq1, hq2⟩ <;> subst hq2 <;> exact ⟨rfl, rfl⟩)
      rfl (by simp [billSchema, PropSchema.object, PropSchema.properties]) rfl rfl
      (by decide) rfl rfl
  · exact c2_amended.2.2.1 1 billDoc "BillEvent" billEventSchema "bill"
      (.refTo "#/components/schemas/Bill") [] "#/components/schemas/Bill"
      [("x", .int 1)] rfl rfl rfl (by decide) rfl rfl
  · exact c2_amended.2.2.2 1 orderDoc "Order" orderSchema "items"
      (.arrayOf (.refTo "#/components/schemas/Item")) [("other", .int 1)]
      rfl rfl rfl rfl rfl rfl

/-- **C5, counterexample.** A generated Python `from_dict` given a
well-formed mapping that lacks the required `$ref` field `bill` fails
with `KeyError` — which is none of `{ParseError, ValidationError,
UnmarshalError}` — so `from_wire` does not fail with exactly one of the
three error kinds in every target language. -/
theorem c5_counterexample :
    pyFromDict 2 billDoc "BillEvent" (.obj [("x", .int 1)]) =
      .error (.keyError "bill") ∧
    pyErrInSpecTaxonomy (.keyError "bill") = false :=
  ⟨rfl, rfl⟩

/-- **C5, amended.** The TypeScript unmarshaller satisfies the claim:
for every payload it fails with `PARSE_ERROR` exactly when the payload is
malformed JSON, with `VALIDATION_ERROR` exactly when the payload is
well-formed but fails the zod schema (carrying the issues), succeeds
exactly when the well-formed payload passes, and never produces the other
error codes — so the three outcomes are mutually exclusive and
distinguishable.  The Python `from_dict`, by contrast, only ever matches
the taxonomy through the pydantic `ValidationError`; its
`ValueError`/`KeyError`/`AttributeError`/`TypeError` failures fall
outside it. -/
theorem c5_amended :
    (∀ fuel doc name e payload,
      lookupZod (zodEnv fuel doc) name = some e →
      ((tsUnmarshal fuel doc name payload = .error .parseError ↔
          payload = .malformed) ∧
        (∀ issues,
          tsUnmarshal fuel doc name payload = .error (.validationError issues) ↔
          ∃ j, payload = .wellFormed j ∧
            zodCheck fuel (zodEnv fuel doc) e j = .error issues) ∧
        (∀ v, tsUnmarshal fuel doc name payload = .ok v ↔
          ∃ j, payload = .wellFormed j ∧
            zodCheck fuel (zodEnv fuel doc) e j = .ok v) ∧
        tsUnmarshal fuel doc name payload ≠ .error .unmarshalError ∧
        tsUnmarshal fuel doc name payload ≠ .error .marshalError)) ∧
    (∀ e2, pyErrInSpecTaxonomy e2 = true ↔ ∃ fs, e2 = PyErr.validationError fs) := by
  constructor
  · intro fuel doc name e payload henv
    cases payload with
    | malformed =>
      refine ⟨by simp [tsUnmarshal], fun issues => by simp [tsUnmarshal],
        fun v => by simp [tsUnmarshal], by simp [tsUnmarshal], by simp [tsUnmarshal]⟩
    | wellFormed j =>
      cases hz : zodCheck fuel (zodEnv fuel doc) e j with
      | ok v0 =>
        refine ⟨by simp [tsUnmarshal, henv, hz], fun issues => ?_, fun v => ?_,
          by simp [tsUnmarshal, henv, hz], by simp [tsUnmarshal, henv, hz]⟩
        · simp only [tsUnmarshal, henv, hz]
          constructor
          · intro h; cases h
          · rintro ⟨j2, hj, hzz⟩
            cases hj
            rw [hz] at hzz
            cases hzz
        · simp only [tsUnmarshal, henv, hz]
          constructor
          · intro h; cases h; exact ⟨j, rfl, hz⟩
          · rintro ⟨j2, hj, hzz⟩
            cases hj
            rw [hz] at hzz
            cases hzz
            rfl
      | error issues0 =>
        refine ⟨by simp [tsUnmarshal, henv, hz], fun issues => ?_, fun v => ?_,
          by simp [tsUnmarshal, henv, hz], by simp [tsUnmarshal, henv, hz]⟩
        · simp only [tsUnmarshal, henv, hz]
          constructor
          · intro h; cases h; exact ⟨j, rfl, hz⟩
          · rintro ⟨j2, hj, hzz⟩
            cases hj
            rw [hz] at hzz
            cases hzz
            rfl
        · simp only [tsUnmarshal, henv, hz]
          constructor
          · intro h; cases h
          · rintro ⟨j2, hj, hzz⟩
            cases hj
            rw [hz] at hzz
            cases hzz
  · intro e2
    cases e2 <;> simp [pyErrInSpecTaxonomy]

/-- Witness for C5 (amended): a malformed payload for `Bill` yields
exactly `PARSE_ERROR`; the `KeyError` kind is outside the taxonomy. -/
theorem c5_amended_witness :
    tsUnmarshal 2 billDoc "Bill" .malformed = .error .parseError ∧
    ¬ (pyErrInSpecTaxonomy (.keyError "bill") = true) := by
  constructor
  · exact ((c5_amended.1 2 billDoc "Bill"
      (generate_zod_schema 2 billSchema "Bill") .malformed rfl).1).mpr rfl
  · intro h
    obtain ⟨fs, hfs⟩ := (c5_amended.2 (.keyError "bill")).mp h
    cases hfs

/-! ## Round-trip helper lemmas -/

/-- A conformant value is a model instance of the entity. -/
theorem conforms_shape (fuel : Nat) (doc : SchemaDoc) (t : String) (v : PyVal)
    (h : conforms fuel doc t v = true) : ∃ flds, v = .model t flds := by
  cases fuel with
  | zero => cases h
  | succ fuel =>
    cases v with
    | model n flds =>
      simp only [conforms, Bool.and_eq_true, beq_iff_eq] at h
      exact ⟨flds, by rw [h.1]⟩
    | prim j => cases h
    | list elems => cases h

/-- The emitted date validator ignores model-instance values. -/
theorem pyDateCheck_model (fmt : Option String) (t : String)
    (fl : List (String × PyVal)) : pyDateCheck fmt (.model t fl) = true := by
  cases fmt <;> rfl

/-- The emitted date validator ignores list values. -/
theorem pyDateCheck_list (fmt : Option String) (els : List PyVal) :
    pyDateCheck fmt (.list els) = true := by
  cases fmt <;> rfl

/-- An array-of-`$ref` property's annotation is `List[{target model}]`. -/
theorem pyAnnOf_arrayRef (s : PropSchema) (h : s.ref = none)
    (h2 : isArrayRefProp s = true) :
    pyAnnOf s = some (.listOf (.refModel (arrayRefTarget s))) := by
  have h3 := h2
  simp only [isArrayRefProp, Bool.and_eq_true, decide_eq_true_eq] at h3
  obtain ⟨ht, hi⟩ := h3
  cases hitems : s.items with
  | none => rw [hitems] at hi; simp at hi
  | some inner =>
    rw [hitems] at hi
    dsimp only at hi
    cases hrr : inner.ref with
    | none => rw [hrr] at hi; simp at hi
    | some rr => simp [pyAnnOf, h, ht, hitems, hrr, arrayRefTarget]

/-- `pyToDictProp` depends on the field list only through the looked-up
attribute. -/
theorem pyToDictProps_congr (rec : String → PyVal → Except PyErr Json)
    (props : List (String × PropSchema))
    (fields fields2 : List (String × PyVal))
    (h : ∀ p ps, (p, ps) ∈ props → lookupField fields p = lookupField fields2 p) :
    pyToDictProps rec props fields = pyToDictProps rec props fields2 := by
  induction props with
  | nil => rfl
  | cons pp rest ih =>
    obtain ⟨p, ps⟩ := pp
    have h1 := h p ps (List.mem_cons_self _ _)
    have ihr := ih (fun q qs hq => h q qs (List.mem_cons_of_mem _ hq))
    simp only [pyToDictProps, pyToDictProp, h1, ihr]

/-- `pyFromDictProp` depends on the wire object only through the lookup of
its own key. -/
theorem pyFromDictProp_congr (rec : String → Json → Except PyErr PyVal)
    (p : String) (s : PropSchema) (l l2 : List (String × Json))
    (h : Json.lookup p l = Json.lookup p l2) :
    pyFromDictProp rec p s l = pyFromDictProp rec p s l2 := by
  simp only [pyFromDictProp, h]

theorem pyFromDictProps_congr (rec : String → Json → Except PyErr PyVal)
    (props : List (String × PropSchema)) (l l2 : List (String × Json))
    (h : ∀ p ps, (p, ps) ∈ props → Json.lookup p l = Json.lookup p l2) :
    pyFromDictProps rec props l = pyFromDictProps rec props l2 := by
  induction props with
  | nil => rfl
  | cons pp rest ih =>
    obtain ⟨p, ps⟩ := pp
    have h1 := pyFromDictProp_congr rec p ps l l2 (h p ps (List.mem_cons_self _ _))
    have ihr := ih (fun q qs hq => h q qs (List.mem_cons_of_mem _ hq))
    simp only [pyFromDictProps, h1, ihr]

/-- The per-entity facts packaged in `pyDocOk`, extracted for a looked-up
entity. -/
theorem pyDocOk_lookup (doc : SchemaDoc) (name : String) (sch : PropSchema)
    (hdoc : pyDocOk doc = true) (h : lookupSchema doc name = some sch) :
    sch.properties.isEmpty = false ∧ keysUnique sch.properties = true ∧
      sch.properties.all (fun pp => !(pp.2.ref.isSome && pp.1 == "lineItems")) = true := by
  induction doc with
  | nil => cases h
  | cons e rest ih =>
    obtain ⟨k, v⟩ := e
    simp only [pyDocOk, List.all_cons, Bool.and_eq_true] at hdoc
    obtain ⟨⟨⟨h1, h2⟩, h3⟩, hrest⟩ := hdoc
    by_cases hk : k = name
    · subst hk
      simp only [lookupSchema, if_pos rfl] at h
      cases h
      exact ⟨by simpa using h1, h2, h3⟩
    · simp only [lookupSchema, if_neg hk] at h
      exact ih (by simpa [pyDocOk] using hrest) h

/-- Round trip over the elements of an array-of-`$ref` value, given the
round trip for conformant entity values at the current fuel. -/
theorem py_roundtrip_elems (fuel : Nat) (doc : SchemaDoc) (target : String)
    (IH : ∀ name x, conforms fuel doc name x = true →
      ∃ w, pyToDict fuel doc name x = .ok w ∧ pyFromDict fuel doc name w = .ok x) :
    ∀ elems, elemsConform (conforms fuel doc) target elems = true →
      ∃ ws, pyToDictList (pyToDict fuel doc) target elems = .ok ws ∧
        pyFromDictList (pyFromDict fuel doc) target ws = .ok elems ∧
        elems.all (pyElemOk (.refModel target)) = true := by
  intro elems
  induction elems with
  | nil => exact fun _ => ⟨[], rfl, rfl, rfl⟩
  | cons v rest ih =>
    intro h
    simp only [elemsConform, Bool.and_eq_true] at h
    obtain ⟨hv, hrest⟩ := h
    obtain ⟨w, hto, hfrom⟩ := IH target v hv
    obtain ⟨flds, hshape⟩ := conforms_shape fuel doc target v hv
    obtain ⟨ws, htos, hfroms, hall⟩ := ih hrest
    refine ⟨w :: ws, ?_, ?_, ?_⟩
    · simp [pyToDictList, hto, htos]
    · simp [pyFromDictList, hfrom, hfroms]
    · subst hshape
      simp [hall, pyElemOk]

/-- Round trip for one conformant property value: the `to_dict` entry
succeeds, the matching `from_dict` argument recovers the value, and the
value passes pydantic's field check. -/
theorem py_roundtrip_prop (fuel : Nat) (doc : SchemaDoc)
    (IH : ∀ name x, conforms fuel doc name x = true →
      ∃ w, pyToDict fuel doc name x = .ok w ∧ pyFromDict fuel doc name w = .ok x)
    (p : String) (ps : PropSchema) (isReq : Bool) (v : PyVal)
    (hnl : (ps.ref.isSome && p == "lineItems") = false)
    (hpc : propConforms (conforms fuel doc) ps isReq v = true) :
    ∃ j ann, pyToDictVal (pyToDict fuel doc) p ps v = .ok j ∧
      (∀ l, Json.lookup p l = some j →
        pyFromDictProp (pyFromDict fuel doc) p ps l = .ok v) ∧
      pyAnnOf ps = some ann ∧ pyFieldOk ann (!isReq) ps.format v = true := by
  cases href : ps.ref with
  | some r =>
    have hpli : p ≠ "lineItems" := by
      intro hp
      rw [href, hp] at hnl
      simp at hnl
    simp only [propConforms, href] at hpc
    obtain ⟨w, hto, hfrom⟩ := IH (refLast r) v hpc
    obtain ⟨flds, hshape⟩ := conforms_shape fuel doc (refLast r) v hpc
    refine ⟨w, .refModel (refLast r), ?_, ?_, ?_, ?_⟩
    · simp [pyToDictVal, href, hpli, hto]
    · intro l hl
      simp [pyFromDictProp, href, hpli, hl, hfrom]
    · simp [pyAnnOf, href]
    · subst hshape
      simp [pyFieldOk, PyVal.isNull, pyAnnMatches, pyDateCheck_model]
  | none =>
    cases harr : isArrayRefProp ps with
    | true =>
      simp only [propConforms, href, harr, if_pos] at hpc
      cases v with
      | list elems =>
        obtain ⟨ws, htos, hfroms, hall⟩ :=
          py_roundtrip_elems fuel doc (arrayRefTarget ps) IH elems hpc
        refine ⟨.arr ws, .listOf (.refModel (arrayRefTarget ps)), ?_, ?_, ?_, ?_⟩
        · simp [pyToDictVal, href, harr, htos]
        · intro l hl
          simp [pyFromDictProp, href, harr, hl, hfroms]
        · exact pyAnnOf_arrayRef ps href harr
        · simp [pyFieldOk, PyVal.isNull, pyAnnMatches, hall, pyDateCheck_list]
      | prim j => cases hpc
      | model n flds => cases hpc
    | false =>
      simp only [propConforms, href, harr, Bool.false_eq_true, if_false] at hpc
      cases v with
      | prim j =>
        cases hann : pyAnnOf ps with
        | none => rw [hann] at hpc; cases hpc
        | some ann =>
          rw [hann] at hpc
          refine ⟨j, ann, ?_, ?_, rfl, hpc⟩
          · simp [pyToDictVal, href, harr, PyVal.asWire]
          · intro l hl
            simp [pyFromDictProp, href, harr, hl]
      | model n flds => cases hpc
      | list elems => cases hpc

/-- Round trip over a conformant field list: `to_dict` emits one entry
per property, `from_dict` recovers every field from those entries, and
every field passes pydantic's check. -/
theorem py_roundtrip_props (fuel : Nat) (doc : SchemaDoc)
    (IH : ∀ name x, conforms fuel doc name x = true →
      ∃ w, pyToDict fuel doc name x = .ok w ∧ pyFromDict fuel doc name w = .ok x) :
    ∀ (props : List (String × PropSchema)) (req : List String)
      (fields : List (String × PyVal)),
      keysUnique props = true →
      props.all (fun pp => !(pp.2.ref.isSome && pp.1 == "lineItems")) = true →
      fieldsConform (conforms fuel doc) props req fields = true →
      ∃ entries,
        pyToDictProps (pyToDict fuel doc) props fields = .ok entries ∧
        pyFromDictProps (pyFromDict fuel doc) props entries = .ok fields ∧
        entries.map Prod.fst = props.map Prod.fst ∧
        (∀ p ps, (p, ps) ∈ props →
          ∃ v ann, lookupField fields p = some v ∧ pyAnnOf ps = some ann ∧
            pyFieldOk ann (!req.contains p) ps.format v = true) := by
  intro props
  induction props with
  | nil =>
    intro req fields _ _ hfc
    cases fields with
    | nil => exact ⟨[], rfl, rfl, rfl, by intro p ps h; cases h⟩
    | cons f fs => cases hfc
  | cons pp rest ih =>
    obtain ⟨p, ps⟩ := pp
    intro req fields hu hnl hfc
    cases fields with
    | nil => cases hfc
    | cons f fs =>
      obtain ⟨q, v⟩ := f
      simp only [fieldsConform, Bool.and_eq_true, beq_iff_eq] at hfc
      obtain ⟨⟨hq, hpc⟩, hrest⟩ := hfc
      replace hq := hq.symm
      subst hq
      simp only [keysUnique, Bool.and_eq_true, Bool.not_eq_true'] at hu
      obtain ⟨hnot, hurest⟩ := hu
      simp only [List.all_cons, Bool.and_eq_true] at hnl
      obtain ⟨hnl1, hnlrest⟩ := hnl
      have hrestkeys : ∀ q2 qs2, (q2, qs2) ∈ rest → q2 ≠ p := by
        intro q2 qs2 hq2 hq2p
        subst hq2p
        have : rest.any (fun x => x.1 == q2) = true :=
          List.any_eq_true.mpr ⟨(q2, qs2), hq2, by simp⟩
        rw [this] at hnot
        cases hnot
      obtain ⟨j, ann, htoV, hfromF, hann, hok⟩ :=
        py_roundtrip_prop fuel doc IH p ps (req.contains p) v
          (by rw [Bool.not_eq_true'] at hnl1; exact hnl1) hpc
      obtain ⟨entriesR, htosR, hfromsR, hkeysR, hcheckR⟩ :=
        ih req fs hurest hnlrest hrest
      refine ⟨(p, j) :: entriesR, ?_, ?_, ?_, ?_⟩
      · have hcongr : pyToDictProps (pyToDict fuel doc) rest ((p, v) :: fs) =
            pyToDictProps (pyToDict fuel doc) rest fs := by
          apply pyToDictProps_congr
          intro q2 qs2 hq2
          simp [lookupField, Ne.symm (hrestkeys q2 qs2 hq2)]
        simp only [pyToDictProps, pyToDictProp, lookupField, eq_self_iff_true,
          if_true, htoV, hcongr, htosR]
      · have hcongr : pyFromDictProps (pyFromDict fuel doc) rest ((p, j) :: entriesR) =
            pyFromDictProps (pyFromDict fuel doc) rest entriesR := by
          apply pyFromDictProps_congr
          intro q2 qs2 hq2
          simp [Json.lookup, Ne.symm (hrestkeys q2 qs2 hq2)]
        have hhead := hfromF ((p, j) :: entriesR) (by simp [Json.lookup])
        simp only [pyFromDictProps, hhead, hcongr, hfromsR]
      · simp [hkeysR]
      · intro p2 ps2 hmem
        rcases List.mem_cons.mp hmem with heq | hmem2
        · cases heq
          exact ⟨v, ann, by simp [lookupField], hann, hok⟩
        · obtain ⟨v2, ann2, hl2, hann2, hok2⟩ := hcheckR p2 ps2 hmem2
          exact ⟨v2, ann2,
            by simp [lookupField, Ne.symm (hrestkeys p2 ps2 hmem2), hl2], hann2, hok2⟩

/-- The Python marshaller round trip, by induction on the reference
depth. -/
theorem py_roundtrip (fuel : Nat) (doc : SchemaDoc) (hdoc : pyDocOk doc = true) :
    ∀ name x, conforms fuel doc name x = true →
      ∃ w, pyToDict fuel doc name x = .ok w ∧ pyFromDict fuel doc name w = .ok x := by
  induction fuel with
  | zero => intro name x h; cases h
  | succ fuel ih =>
    intro name x hc
    cases x with
    | prim j => cases hc
    | list elems => cases hc
    | model n fields =>
      simp only [conforms, Bool.and_eq_true, beq_iff_eq] at hc
      obtain ⟨hn, hc2⟩ := hc
      subst hn
      cases hsch : lookupSchema doc n with
      | none => rw [hsch] at hc2; cases hc2
      | some sch =>
        rw [hsch] at hc2
        dsimp only at hc2
        obtain ⟨hne, hu, hnl⟩ := pyDocOk_lookup doc n sch hdoc hsch
        obtain ⟨entries, htos, hfroms, hkeys, hcheck⟩ :=
          py_roundtrip_props fuel doc ih sch.properties sch.required fields
            hu hnl hc2
        refine ⟨.obj entries, ?_, ?_⟩
        · simp only [pyToDict, hsch, htos]
        · have hfalsy : (Json.obj entries).falsy = false := by
            cases hentries : entries with
            | nil =>
              rw [hentries] at hkeys
              cases hprops : sch.properties with
              | nil => rw [hprops] at hne; cases hne
              | cons a b => rw [hprops] at hkeys; cases hkeys
            | cons a b => simp [Json.falsy]
          have hbad : sch.properties.filterMap (fun pp =>
              match lookupField fields pp.1 with
              | some v =>
                match pyAnnOf pp.2 with
                | some ann =>
                  if pyFieldOk ann (!sch.required.contains pp.1) pp.2.format v then
                    none
                  else some pp.1
                | none => some pp.1
              | none => some pp.1) = [] := by
            rw [List.filterMap_eq_nil_iff]
            intro pp hpp
            obtain ⟨v, ann, hl, hann, hok⟩ :=
              hcheck pp.1 pp.2 (by rw [Prod.mk.eta]; exact hpp)
            simp only [hl, hann, hok]
            rfl
          simp only [pyFromDict, hsch, hfalsy, Bool.false_eq_true, if_false,
            hfroms]
          simp only [pydanticInit, hbad, List.isEmpty_nil, if_true]

/-- **C1, counterexample.** `OptHolder` has one optional reference
property `bar`; the value with `bar = None` satisfies the required-field
and type constraints (pydantic construction accepts it), yet the
generated Python `to_dict` raises `AttributeError` on it (line 745
delegates to `BazMarshaller.to_dict(obj.bar)`, which touches attributes
of `None`) — so `from_wire(to_wire(x)) = x` fails for this valid `x`. -/
theorem c1_counterexample :
    pydanticInit "OptHolder" optRefSchema [("bar", .prim .null)] =
      .ok (.model "OptHolder" [("bar", .prim .null)]) ∧
    pyToDict 2 optRefDoc "OptHolder" (.model "OptHolder" [("bar", .prim .null)]) =
      .error .attributeError :=
  ⟨rfl, rfl⟩

/-- **C1, amended.** (Python) For every document whose entities all have
at least one property, unique property names and no direct-`$ref`
property named `lineItems`, and every value conforming to its entity
schema — in particular with non-null values in every reference-typed and
array-of-reference property, even optional ones — the generated pair
satisfies `from_dict(to_dict(x)) = x`.  (TypeScript) Whenever the zod
schema parses a value back to itself, `marshal` emits exactly that
payload and `unmarshal` recovers it. -/
theorem c1_amended :
    (∀ fuel doc name x, pyDocOk doc = true → conforms fuel doc name x = true →
      ∃ w, pyToDict fuel doc name x = .ok w ∧ pyFromDict fuel doc name w = .ok x) ∧
    (∀ fuel doc name x e, lookupZod (zodEnv fuel doc) name = some e →
      zodCheck fuel (zodEnv fuel doc) e x = .ok x →
      tsMarshal fuel doc name x = .ok (.wellFormed x) ∧
      tsUnmarshal fuel doc name (.wellFormed x) = .ok x) := by
  constructor
  · intro fuel doc name x hdoc hc
    exact py_roundtrip fuel doc hdoc name x hc
  · intro fuel doc name x e henv hz
    exact ⟨by simp [tsMarshal, henv, hz], by simp [tsUnmarshal, henv, hz]⟩

/-- Witness for C1 (amended): the nested bill event round-trips through
the Python marshaller pair, and a `Bill` wire value through the
TypeScript pair. -/
theorem c1_amended_witness :
    (∃ w, pyToDict 3 billDoc "BillEvent"
        (.model "BillEvent" [("bill", .model "Bill"
          [("billId", .prim (.str "B1")), ("amountInCents", .prim (.int 500))])]) =
        .ok w ∧
      pyFromDict 3 billDoc "BillEvent" w =
        .ok (.model "BillEvent" [("bill", .model "Bill"
          [("billId", .prim (.str "B1")), ("amountInCents", .prim (.int 500))])])) ∧
    tsMarshal 6 billDoc "Bill"
        (.obj [("billId", .str "B1"), ("amountInCents", .int 500)]) =
      .ok (.wellFormed (.obj [("billId", .str "B1"), ("amountInCents", .int 500)])) ∧
    tsUnmarshal 6 billDoc "Bill"
        (.wellFormed (.obj [("billId", .str "B1"), ("amountInCents", .int 500)])) =
      .ok (.obj [("billId", .str "B1"), ("amountInCents", .int 500)]) := by
  refine ⟨?_, ?_, ?_⟩
  · exact c1_amended.1 3 billDoc "BillEvent"
      (.model "BillEvent" [("bill", .model "Bill"
        [("billId", .prim (.str "B1")), ("amountInCents", .prim (.int 500))])])
      rfl rfl
  · exact (c1_amended.2 6 billDoc "Bill"
      (.obj [("billId", .str "B1"), ("amountInCents", .int 500)])
      (generate_zod_schema 6 billSchema "Bill") rfl rfl).1
  · exact (c1_amended.2 6 billDoc "Bill"
      (.obj [("billId", .str "B1"), ("amountInCents", .int 500)])
      (generate_zod_schema 6 billSchema "Bill") rfl rfl).2

end SchemaRegistry

